import Mathlib

/-!
HydraSDR RFOne host tools: a verification development.

A shallow embedding of the command line tools of `hydrasdr-tools/src`
(`hydrasdr_async_rx.c`, `hydrasdr_gpio.c`, `hydrasdr_info.c`) and theorems about them.

Conventions of the embedding:

* C integers are `Nat`/`Int` with explicit reduction modulo `2^w` where the C type wraps
  (`uint64_t`, `size_t` taken as 64 bit wide, `uint8_t`).
* A C string is the list of its characters before the terminating NUL.
* Calls into the device library, the C library and the operating system are answered by
  explicit oracle arguments; every call made is recorded in a trace.
-/

namespace HydraSDR

/-! ## Constants of the library header -/

/-- Modelled from the spec: the status code of a successful library call. The header
`hydrasdr.h` is not part of the sources; the tools test it with `if (ret)`, so it is zero. -/
def HYDRASDR_SUCCESS : Int := 0

/-- Modelled from the spec: the status code `parse_u8`/`parse_u64` return on a rejected
string. Its numeric value comes from the library header; only `≠ HYDRASDR_SUCCESS` is used. -/
def HYDRASDR_ERROR_INVALID_PARAM : Int := -2

/-- Modelled from the spec: the generic failure status of the library header; only
`≠ HYDRASDR_SUCCESS` is used. -/
def HYDRASDR_ERROR_OTHER : Int := -9999

/-- Exit status `EXIT_SUCCESS` of `stdlib.h`. -/
def EXIT_SUCCESS : Int := 0

/-- Exit status `EXIT_FAILURE` of `stdlib.h`. -/
def EXIT_FAILURE : Int := 1

/-- Modelled from the spec: `enum hydrasdr_sample_type`, numbered as the usage text of the
capture tool prints it (`0=FloatIQ, 1=FloatReal, 2=Int16IQ, 3=Int16Real, 5=Raw`). -/
def HYDRASDR_SAMPLE_FLOAT32_IQ : Int := 0

/-- Modelled from the spec: see `HYDRASDR_SAMPLE_FLOAT32_IQ`. -/
def HYDRASDR_SAMPLE_FLOAT32_REAL : Int := 1

/-- Modelled from the spec: see `HYDRASDR_SAMPLE_FLOAT32_IQ`. -/
def HYDRASDR_SAMPLE_INT16_IQ : Int := 2

/-- Modelled from the spec: see `HYDRASDR_SAMPLE_FLOAT32_IQ`. -/
def HYDRASDR_SAMPLE_INT16_REAL : Int := 3

/-- Modelled from the spec: see `HYDRASDR_SAMPLE_FLOAT32_IQ`. -/
def HYDRASDR_SAMPLE_UINT16_REAL : Int := 4

/-- Modelled from the spec: see `HYDRASDR_SAMPLE_FLOAT32_IQ`. -/
def HYDRASDR_SAMPLE_RAW : Int := 5

/-- Modelled from the spec: the end marker of `enum hydrasdr_sample_type`, the number of
sample types. -/
def HYDRASDR_SAMPLE_END : Int := 6

/-- Width of `uint64_t`, and of `size_t` on the 64 bit targets modelled here. -/
def U64 : Nat := 2 ^ 64

/-! ## Capture tool: `bytes_per_sample` and `rx_callback` -/

namespace AsyncRx

/-- `bytes_per_sample` of `hydrasdr_async_rx.c`: a `switch` over the sample type with a
`default` arm. -/
def bytes_per_sample (type : Int) : Nat :=
  if type = HYDRASDR_SAMPLE_FLOAT32_IQ then 8
  else if type = HYDRASDR_SAMPLE_FLOAT32_REAL then 4
  else if type = HYDRASDR_SAMPLE_INT16_IQ then 4
  else if type = HYDRASDR_SAMPLE_INT16_REAL then 2
  else if type = HYDRASDR_SAMPLE_UINT16_REAL then 2
  else if type = HYDRASDR_SAMPLE_RAW then 2
  else 2

/-- The fields of `hydrasdr_transfer_t` that `rx_callback` reads. `sample_count` is a C
`int`, `dropped_samples` a `uint64_t`, `sample_type` the enum as an integer. -/
structure Transfer where
  sample_count : Int
  dropped_samples : Nat
  sample_type : Int
  deriving DecidableEq, Repr

/-- The global state of the capture tool that the callback touches. `g_out` is `none` for
a NULL stream and `some n` for an open output file to which `n` bytes have been appended.
`fwrites` records every `fwrite` issued as (bytes requested, bytes written), latest first;
`disk_errors` counts the "Disk write error" lines. -/
structure Globals where
  g_exit_requested : Bool
  g_total_bytes : Nat
  g_total_dropped_samples : Nat
  g_out : Option Nat
  fwrites : List (Nat × Nat)
  disk_errors : Nat
  deriving DecidableEq, Repr

/-- The globals as the static initialisers and a successful `fopen` leave them. -/
def Globals.start (out : Option Nat) : Globals :=
  { g_exit_requested := false, g_total_bytes := 0, g_total_dropped_samples := 0,
    g_out := out, fwrites := [], disk_errors := 0 }

/-- The cast `(size_t)t->sample_count`. -/
def to_size_t (n : Int) : Nat := (n % (U64 : Int)).toNat

/-- The local `chunk_bytes` of `rx_callback`: `(size_t)t->sample_count * bps` in `size_t`. -/
def chunk_bytes (t : Transfer) : Nat :=
  (to_size_t t.sample_count * bytes_per_sample t.sample_type) % U64

/-- `rx_callback` of `hydrasdr_async_rx.c`. `w` is the operating system's answer to the
`fwrite` of this invocation, if one is issued: the number of bytes it manages to write (at
most the number requested). The result is the new globals and the returned `int`. -/
def rx_callback (g : Globals) (t : Transfer) (w : Nat) : Globals × Int :=
  if g.g_exit_requested then (g, 0)
  else
    let g1 : Globals :=
      if t.dropped_samples ≠ 0 then
        { g with g_total_dropped_samples :=
            (g.g_total_dropped_samples + t.dropped_samples) % U64 }
      else g
    let chunk := chunk_bytes t
    let g2 : Globals :=
      match g1.g_out with
      | some len =>
        if chunk > 0 then
          let written := min w chunk
          { g1 with
            g_out := some (len + written),
            fwrites := (chunk, written) :: g1.fwrites,
            disk_errors := if written ≠ chunk then g1.disk_errors + 1 else g1.disk_errors }
        else g1
      | none => g1
    ({ g2 with g_total_bytes := (g2.g_total_bytes + chunk) % U64 }, 0)

/-- `posix_signal_handler` / `windows_signal_handler`: the shutdown request. -/
def posix_signal_handler (g : Globals) : Globals :=
  { g with g_exit_requested := true }

/-- What happens to the globals during a run: a delivery by the library thread (with the
operating system's answer to its `fwrite`), or a shutdown request (a signal, or the
monitoring loop finding the device no longer streaming). -/
inductive Event where
  | deliver (t : Transfer) (w : Nat)
  | shutdown
  deriving DecidableEq, Repr

/-- One event applied to the globals. -/
def step (g : Globals) : Event → Globals
  | .deliver t w => (rx_callback g t w).1
  | .shutdown => posix_signal_handler g

/-- A sequence of events applied in order. -/
def run (g : Globals) (es : List Event) : Globals :=
  es.foldl step g

/-- The transfers of the deliveries in an event sequence, in order. -/
def deliveries : List Event → List Transfer
  | [] => []
  | .deliver t _ :: es => t :: deliveries es
  | .shutdown :: es => deliveries es

/-- The events of a sequence before its first shutdown request. -/
def before_shutdown : List Event → List Event
  | [] => []
  | .deliver t w :: es => .deliver t w :: before_shutdown es
  | .shutdown :: _ => []

/-- The sum of `n * bytes_per_sample(type)` over a list of transfers, in exact arithmetic. -/
def total_chunk_bytes (ts : List Transfer) : Nat :=
  (ts.map fun t => t.sample_count.toNat * bytes_per_sample t.sample_type).sum

/-- The sum of the `dropped_samples` fields of a list of transfers, in exact arithmetic. -/
def total_dropped (ts : List Transfer) : Nat :=
  (ts.map fun t => t.dropped_samples).sum

/-- One delivery of 2,000,000 samples of type INT16_IQ. -/
def delivery_2M : Transfer :=
  { sample_count := 2000000, dropped_samples := 0, sample_type := HYDRASDR_SAMPLE_INT16_IQ }

end AsyncRx

/-! ## The C library's number scanners

`strtol` and `strtoull` as ISO C specifies them (7.22.1.4), for the bases the tools pass
(10, 16 and 2): optional white space, an optional sign, for base 16 an optional `0x`/`0X`,
then the longest run of digits of the base. -/

namespace CLib

/-- `isspace` in the C locale: space, and the controls `\t \n \v \f \r`. -/
def isspace (c : Char) : Bool :=
  c.toNat = 32 || (9 ≤ c.toNat && c.toNat ≤ 13)

/-- The value of a character as a digit: `0`-`9`, then letters of either case from 10. -/
def digit_value (c : Char) : Option Nat :=
  if 48 ≤ c.toNat ∧ c.toNat ≤ 57 then some (c.toNat - 48)
  else if 97 ≤ c.toNat ∧ c.toNat ≤ 122 then some (c.toNat - 87)
  else if 65 ≤ c.toNat ∧ c.toNat ≤ 90 then some (c.toNat - 55)
  else none

/-- Whether a character is a digit of the base. -/
def is_digit (base : Nat) (c : Char) : Bool :=
  match digit_value c with
  | some d => d < base
  | none => false

/-- The length of the longest leading run of digits of the base. -/
def digits_len (base : Nat) : List Char → Nat
  | [] => 0
  | c :: cs => if is_digit base c then digits_len base cs + 1 else 0

/-- The number a run of digits denotes in the base. -/
def digits_value (base : Nat) (cs : List Char) : Nat :=
  cs.foldl (fun acc c => acc * base + (digit_value c).getD 0) 0

/-- The length of an optional sign at the head of a string. -/
def sign_len : List Char → Nat
  | '-' :: _ => 1
  | '+' :: _ => 1
  | _ => 0

/-- Whether a string starts with a minus sign. -/
def is_negative : List Char → Bool
  | '-' :: _ => true
  | _ => false

/-- The length of the optional `0x`/`0X` that base 16 admits before the digits; it belongs
to the number only when a hexadecimal digit follows it. -/
def hex_prefix_len (base : Nat) : List Char → Nat
  | '0' :: x :: h :: _ =>
    if base = 16 ∧ (x = 'x' ∨ x = 'X') ∧ is_digit 16 h = true then 2 else 0
  | _ => 0

/-- The subject sequence of a conversion: its sign, the magnitude of its digits, and the
number of characters from the start of the string to its end (`s_end - s`); no digits
means no conversion, with `s_end = s`. -/
structure Subject where
  negative : Bool
  magnitude : Nat
  consumed : Nat
  deriving DecidableEq, Repr

/-- The subject sequence `strtol`/`strtoull` find at the head of `s`. -/
def subject (base : Nat) (s : List Char) : Subject :=
  let ws := (s.takeWhile isspace).length
  let s1 := s.drop ws
  let s2 := s1.drop (sign_len s1)
  let s3 := s2.drop (hex_prefix_len base s2)
  let k := digits_len base s3
  if k = 0 then { negative := false, magnitude := 0, consumed := 0 }
  else { negative := is_negative s1,
         magnitude := digits_value base (s3.take k),
         consumed := ws + sign_len s1 + hex_prefix_len base s2 + k }

/-- `strtoull(s, &s_end, base)`: the value and `s_end - s`. Out of range gives
`ULLONG_MAX`; a minus sign negates in the unsigned type. -/
def strtoull (s : List Char) (base : Nat) : Nat × Nat :=
  let r := subject base s
  let v := if U64 ≤ r.magnitude then U64 - 1
           else if r.negative then (U64 - r.magnitude) % U64
           else r.magnitude
  (v, r.consumed)

/-- `strtol(s, &s_end, base)` with a 64 bit `long`: the value, clamped to
`LONG_MIN .. LONG_MAX`, and `s_end - s`. -/
def strtol (s : List Char) (base : Nat) : Int × Nat :=
  let r := subject base s
  let v : Int := if r.negative then -(r.magnitude : Int) else (r.magnitude : Int)
  let v := if v < -(2 : Int) ^ 63 then -(2 : Int) ^ 63
           else if (2 : Int) ^ 63 - 1 < v then (2 : Int) ^ 63 - 1 else v
  (v, r.consumed)

end CLib

/-! ## GPIO tool -/

namespace GpioTool

/-- `PORT_NUM_INVALID` of `hydrasdr_gpio.c`. -/
def PORT_NUM_INVALID : Nat := 255

/-- `PIN_NUM_INVALID` of `hydrasdr_gpio.c`. -/
def PIN_NUM_INVALID : Nat := 255

/-- `PORT_NUM_MAX` of `hydrasdr_gpio.c`. -/
def PORT_NUM_MAX : Nat := 7

/-- `PIN_NUM_MAX` of `hydrasdr_gpio.c`. -/
def PIN_NUM_MAX : Nat := 31

/-- Modelled from the spec: the loop bound `GPIO_PORT7+1` of `dump_ports`; the header that
numbers the ports `GPIO_PORT0 .. GPIO_PORT7` as 0 .. 7 is not part of the sources. -/
def PORT_COUNT : Nat := 8

/-- Modelled from the spec: the loop bound `GPIO_PIN31+1` of `dump_port`; the header that
numbers the pins `GPIO_PIN0 .. GPIO_PIN31` as 0 .. 31 is not part of the sources. -/
def PIN_COUNT : Nat := 32

/-- `parse_u8` of `hydrasdr_gpio.c`. The second argument is the old content of `*value`;
the result is the status and the new content of `*value`. -/
def parse_u8 (s : List Char) (value : Nat) : Int × Nat :=
  let r := CLib.strtol s 10
  if r.2 ≠ 0 ∧ r.2 = s.length then
    if 0 ≤ r.1 ∧ r.1 < 256 then (HYDRASDR_SUCCESS, r.1.toNat % 256)
    else (HYDRASDR_ERROR_INVALID_PARAM, value)
  else (HYDRASDR_ERROR_INVALID_PARAM, value)

/-- The base and the rest of the string that `parse_u64` hands to `strtoull`. -/
def select_base (s : List Char) : Nat × List Char :=
  if s.length > 2 then
    match s with
    | '0' :: c :: rest =>
      if c = 'x' ∨ c = 'X' then (16, rest)
      else if c = 'b' ∨ c = 'B' then (2, rest)
      else (10, s)
    | _ => (10, s)
  else (10, s)

/-- `parse_u64` of `hydrasdr_gpio.c` (and, word for word, of `hydrasdr_info.c`). The second
argument is the old content of `*value`; the result is the status and the new content. -/
def parse_u64 (s : List Char) (value : Nat) : Int × Nat :=
  let bs := select_base s
  let r := CLib.strtoull bs.2 bs.1
  if r.2 ≠ 0 ∧ r.2 = bs.2.length then (HYDRASDR_SUCCESS, r.1)
  else (HYDRASDR_ERROR_INVALID_PARAM, value)

/-- What the GPIO tool does that is visible outside it: the device library calls it makes,
and the printing of the usage text. -/
inductive Ev where
  | open_sn (serial : Nat)
  | open_first
  | gpio_read (port pin : Nat)
  | gpiodir_read (port pin : Nat)
  | gpio_write (port pin value : Nat)
  | close
  | usage
  deriving DecidableEq, Repr

/-- The device library as the tool sees it: given what happened so far and the call made
now, the status the call returns and the byte it stores through its output pointer. -/
abbrev Device := List Ev → Ev → Int × Nat

/-- `dump_port_pin` of `hydrasdr_gpio.c`: the returned status and the extended trace. -/
def dump_port_pin (dev : Device) (tr : List Ev) (port pin : Nat) : Int × List Ev :=
  let a := dev tr (Ev.gpio_read port pin)
  let tr1 := tr ++ [Ev.gpio_read port pin]
  if a.1 = HYDRASDR_SUCCESS then
    let b := dev tr1 (Ev.gpiodir_read port pin)
    (b.1, tr1 ++ [Ev.gpiodir_read port pin])
  else (a.1, tr1)

/-- The `for` loop of `dump_port` over the pins still to visit; `result` is the status so
far. The loop body overwrites `result` and never leaves the loop. -/
def dump_port_loop (dev : Device) (port : Nat) : List Nat → Int × List Ev → Int × List Ev
  | [], acc => acc
  | pin :: pins, acc => dump_port_loop dev port pins (dump_port_pin dev acc.2 port pin)

/-- `dump_port` of `hydrasdr_gpio.c`. -/
def dump_port (dev : Device) (tr : List Ev) (port : Nat) : Int × List Ev :=
  dump_port_loop dev port (List.range PIN_COUNT) (HYDRASDR_SUCCESS, tr)

/-- The `for` loop of `dump_ports` over the ports still to visit, with its `break`. -/
def dump_ports_loop (dev : Device) : List Nat → Int × List Ev → Int × List Ev
  | [], acc => acc
  | port :: ports, acc =>
    let r := dump_port dev acc.2 port
    if r.1 ≠ HYDRASDR_SUCCESS then r else dump_ports_loop dev ports r

/-- `dump_ports` of `hydrasdr_gpio.c`. -/
def dump_ports (dev : Device) (tr : List Ev) : Int × List Ev :=
  dump_ports_loop dev (List.range PORT_COUNT) (HYDRASDR_SUCCESS, tr)

/-- `write_port_pin` of `hydrasdr_gpio.c`. -/
def write_port_pin (dev : Device) (tr : List Ev) (port pin value : Nat) : Int × List Ev :=
  ((dev tr (Ev.gpio_write port pin value)).1, tr ++ [Ev.gpio_write port pin value])

/-- An option as `getopt_long` hands it to `main`, with its argument. `s` is known to the
first pass only; `unknown` is anything `getopt_long` answers with `'?'`. -/
inductive Opt where
  | p (optarg : List Char)
  | n (optarg : List Char)
  | r
  | w (optarg : List Char)
  | s (optarg : List Char)
  | unknown
  deriving DecidableEq, Repr

/-- The locals of `main` during the second pass over the options, and the trace. -/
structure St where
  port_number : Nat
  pin_number : Nat
  value : Nat
  result : Int
  trace : List Ev
  deriving DecidableEq, Repr

/-- The body of the `switch` of the second `while` loop of `main`, for one option. -/
def step_option (dev : Device) (st : St) : Opt → St
  | .p optarg =>
    let r := parse_u8 optarg st.port_number
    if r.1 ≠ HYDRASDR_SUCCESS ∨ r.2 > PORT_NUM_MAX then
      { st with port_number := r.2, result := HYDRASDR_ERROR_OTHER }
    else { st with port_number := r.2, result := r.1 }
  | .n optarg =>
    let r := parse_u8 optarg st.pin_number
    if r.1 ≠ HYDRASDR_SUCCESS ∨ r.2 > PIN_NUM_MAX then
      { st with pin_number := r.2, result := HYDRASDR_ERROR_OTHER }
    else { st with pin_number := r.2, result := r.1 }
  | .r =>
    let d :=
      if st.port_number = PORT_NUM_INVALID then dump_ports dev st.trace
      else if st.pin_number = PORT_NUM_INVALID then dump_port dev st.trace st.port_number
      else dump_port_pin dev st.trace st.port_number st.pin_number
    { st with result := d.1, trace := d.2 }
  | .w optarg =>
    let r := parse_u8 optarg st.value
    if r.1 = HYDRASDR_SUCCESS then
      let d := write_port_pin dev st.trace st.port_number st.pin_number r.2
      { st with value := r.2, result := d.1, trace := d.2 }
    else { st with value := r.2, result := r.1 }
  | .s _ => st
  | .unknown => st

/-- The second `while` loop of `main`: options in order, left as soon as `result` is not
`HYDRASDR_SUCCESS` after an option. -/
def process_options (dev : Device) : St → List Opt → St
  | st, [] => st
  | st, o :: os =>
    let st1 := step_option dev st o
    if st1.result ≠ HYDRASDR_SUCCESS then st1 else process_options dev st1 os

/-- The first `while` loop of `main`: every `-s` sets the flag and parses its argument
into `serial_number_val`, the status of the parse being dropped. -/
def serial_pass : Bool × Nat → List Opt → Bool × Nat
  | sn, [] => sn
  | sn, .s optarg :: os => serial_pass (true, (parse_u64 optarg sn.2).2) os
  | sn, _ :: os => serial_pass sn os

/-- The locals of `main` when the second pass starts. `value` is not initialised in the
source; `value0` is whatever it holds. -/
def St.init (value0 : Nat) (tr : List Ev) : St :=
  { port_number := PORT_NUM_INVALID, pin_number := PIN_NUM_INVALID, value := value0,
    result := HYDRASDR_ERROR_OTHER, trace := tr }

/-- `main` of `hydrasdr_gpio.c`: the exit status and the trace. -/
def main (dev : Device) (value0 : Nat) (opts : List Opt) : Int × List Ev :=
  let sn := serial_pass (false, 0) opts
  let op := if sn.1 then Ev.open_sn sn.2 else Ev.open_first
  if (dev [] op).1 ≠ HYDRASDR_SUCCESS then (EXIT_FAILURE, [op, Ev.usage])
  else
    let st := process_options dev (St.init value0 [op]) opts
    let tr := if st.result ≠ HYDRASDR_SUCCESS then st.trace ++ [Ev.usage] else st.trace
    if (dev tr Ev.close).1 ≠ 0 then (EXIT_FAILURE, tr ++ [Ev.close])
    else (0, tr ++ [Ev.close])

/-- Follows the spec's words ("decimal"): a non-empty run of the digits `0`-`9`. -/
def decimal_digits (ds : List Char) : Bool :=
  !ds.isEmpty && ds.all fun c => 48 ≤ c.toNat && c.toNat ≤ 57

/-- Follows the spec's words: the number a run of decimal digits denotes. -/
def decimal_digits_value (ds : List Char) : Nat :=
  ds.foldl (fun a c => 10 * a + (c.toNat - 48)) 0

/-- Follows the spec's words ("a decimal integer with no trailing characters"): the whole
string is an optional sign followed by decimal digits; the integer it denotes. -/
def decimal_integer : List Char → Option Int
  | '-' :: ds => if decimal_digits ds then some (-(decimal_digits_value ds : Int)) else none
  | '+' :: ds => if decimal_digits ds then some (decimal_digits_value ds : Int) else none
  | ds => if decimal_digits ds then some (decimal_digits_value ds : Int) else none

/-- Follows the spec's words: the argument is a decimal integer with no trailing characters
whose value is in `0 .. max`. -/
def decimal_in_range (max : Nat) (s : List Char) : Prop :=
  ∃ v : Int, decimal_integer s = some v ∧ 0 ≤ v ∧ v ≤ max

/-- Follows the spec's words: the value of a `-p`, `-n` or `-w` flag is malformed or out of
range, that is, it is not (white space apart) a decimal integer with no trailing characters
in `0 .. 7` for a port, `0 .. 31` for a pin, `0 .. 255` for a value to write. -/
def malformed_flag : Opt → Prop
  | Opt.p optarg => ¬ decimal_in_range PORT_NUM_MAX (optarg.dropWhile CLib.isspace)
  | Opt.n optarg => ¬ decimal_in_range PIN_NUM_MAX (optarg.dropWhile CLib.isspace)
  | Opt.w optarg => ¬ decimal_in_range 255 (optarg.dropWhile CLib.isspace)
  | _ => False

/-- The addresses of the value reads (`hydrasdr_gpio_read`) in a trace, in order. -/
def value_reads : List Ev → List (Nat × Nat)
  | [] => []
  | Ev.gpio_read port pin :: es => (port, pin) :: value_reads es
  | _ :: es => value_reads es

/-- The calls that read value, then direction, at each address of a list, in order. -/
def read_both : List (Nat × Nat) → List Ev
  | [] => []
  | (port, pin) :: as => Ev.gpio_read port pin :: Ev.gpiodir_read port pin :: read_both as

/-- The pins `0 .. 31` of a port, in order. -/
def port_addresses (port : Nat) : List (Nat × Nat) :=
  (List.range PIN_COUNT).map fun pin => (port, pin)

/-- The addresses of the first `k` ports in port-major, pin-minor order. -/
def ports_addresses (k : Nat) : List (Nat × Nat) :=
  (List.range k).flatMap port_addresses

/-- A device on which every call succeeds, every byte read being 0. -/
def dev_ok : Device := fun _ _ => (HYDRASDR_SUCCESS, 0)

/-- A device on which every call fails with status -1. -/
def dev_dead : Device := fun _ _ => (-1, 0)

/-- A device on which the value read at one address fails with status -1 and every other
call succeeds. -/
def dev_bad_read (port pin : Nat) : Device := fun _ e =>
  if e = Ev.gpio_read port pin then (-1, 0) else (HYDRASDR_SUCCESS, 0)

end GpioTool

/-! ## Capture tool: `main` -/

namespace AsyncRx

/-- The locals of `main` that the command line sets: `freq_hz` (`uint64_t`), `samplerate`
(`uint32_t`), `gain` and `bias` (`uint8_t`), `sample_type` (`int`), `filename`. -/
structure Config where
  freq_hz : Nat
  samplerate : Nat
  gain : Nat
  bias : Nat
  sample_type : Int
  filename : List Char
  deriving DecidableEq, Repr

/-- The initialisers of those locals: `DEFAULT_FREQ_HZ`, `DEFAULT_SAMPLERATE`,
`DEFAULT_GAIN`, 0, `DEFAULT_SAMPLETYPE`, `DEFAULT_FILENAME`. -/
def Config.default : Config :=
  { freq_hz := 100000000, samplerate := 2500000, gain := 10, bias := 0,
    sample_type := HYDRASDR_SAMPLE_INT16_IQ, filename := "capture.bin".toList }

/-- `atoi`: `strtol` in base 10 converted to `int` (two's complement wrap-around). -/
def atoi (s : List Char) : Int :=
  ((CLib.strtol s 10).1 + 2 ^ 31) % 2 ^ 32 - 2 ^ 31

/-- How the argument loop of `main` ends: it falls through with the configuration, or
returns 0 after `-h`/`--help`, or returns 1 at an option it does not know. -/
inductive Parsed where
  | run (cfg : Config)
  | help
  | unknown
  deriving DecidableEq, Repr

/-- The argument loop of `main`, over `argv[1 ..]`. An option that takes a value is
recognised only when a further argument follows it. -/
def parse_args : Config → List (List Char) → Parsed
  | cfg, [] => Parsed.run cfg
  | cfg, a :: b :: rest =>
    if a = "-f".toList then
      parse_args { cfg with freq_hz := (CLib.strtoull b 10).1 } rest
    else if a = "-s".toList then
      parse_args { cfg with samplerate := (CLib.strtoull b 10).1 % 2 ^ 32 } rest
    else if a = "-t".toList then
      parse_args { cfg with sample_type := atoi b } rest
    else if a = "-g".toList then
      parse_args { cfg with gain := (atoi b % 256).toNat } rest
    else if a = "-b".toList then
      parse_args { cfg with bias := (atoi b % 256).toNat } rest
    else if a = "-o".toList then
      parse_args { cfg with filename := b } rest
    else if a = "-h".toList ∨ a = "--help".toList then Parsed.help
    else Parsed.unknown
  | _, [a] =>
    if a = "-h".toList ∨ a = "--help".toList then Parsed.help else Parsed.unknown

/-- What the capture tool's `main` asks of the device library, the C library and the
operating system, and the usage text it prints. -/
inductive Call where
  | print_usage
  | dev_open
  | get_samplerates_count
  | malloc
  | get_samplerates_list
  | set_freq (hz : Nat)
  | set_samplerate (sps : Nat)
  | set_sample_type (type : Int)
  | set_linearity_gain (gain : Nat)
  | set_rf_bias (bias : Nat)
  | fopen (filename : List Char)
  | start_rx
  | is_streaming
  | stop_rx
  | dev_close
  | fclose
  deriving DecidableEq, Repr

/-- The outside world as `main` sees it: given the calls made so far and the call made
now, the integer it answers. For a device call this is the status; for
`get_samplerates_count` the count stored; for `malloc` and `fopen` it is 0 for a NULL
result; for `is_streaming` it is `HYDRASDR_TRUE` (1) while streaming. -/
abbrev Env := List Call → Call → Int

/-- Modelled from the spec: `HYDRASDR_TRUE` of the library header. -/
def HYDRASDR_TRUE : Int := 1

/-- Step 4 of `main`: query the number of sample rates and, if there are some and the
buffer can be allocated, fetch and print them. No status is looked at. -/
def list_samplerates (env : Env) (tr : List Call) : List Call :=
  let tr1 := tr ++ [Call.get_samplerates_count]
  if 0 < (env tr Call.get_samplerates_count) % 2 ^ 32 then
    let tr2 := tr1 ++ [Call.malloc]
    if env tr1 Call.malloc ≠ 0 then tr2 ++ [Call.get_samplerates_list] else tr2
  else tr1

/-- The monitoring loop of `main`, for a run in which the shutdown request of a signal
arrives after `polls` more passes: each pass sleeps, then asks whether the device still
streams and leaves the loop if it does not. The statistics line is not modelled. -/
def monitor (env : Env) : Nat → List Call → List Call
  | 0, tr => tr
  | polls + 1, tr =>
    if env tr Call.is_streaming ≠ HYDRASDR_TRUE then tr ++ [Call.is_streaming]
    else monitor env polls (tr ++ [Call.is_streaming])

/-- Steps 5 to 8 of `main`, from "Apply Configuration" to the label `error`: the value of
`ret` there, the trace, and whether `g_out` is an open file. -/
def configure_and_stream (env : Env) (polls : Nat) (cfg : Config) (tr : List Call) :
    Int × List Call × Bool :=
  let r1 := env tr (Call.set_freq cfg.freq_hz)
  let tr1 := tr ++ [Call.set_freq cfg.freq_hz]
  if r1 ≠ HYDRASDR_SUCCESS then (r1, tr1, false)
  else
    let r2 := env tr1 (Call.set_samplerate cfg.samplerate)
    let tr2 := tr1 ++ [Call.set_samplerate cfg.samplerate]
    if r2 ≠ HYDRASDR_SUCCESS then (r2, tr2, false)
    else if cfg.sample_type < 0 ∨ cfg.sample_type ≥ HYDRASDR_SAMPLE_END then (r2, tr2, false)
    else
      let r3 := env tr2 (Call.set_sample_type cfg.sample_type)
      let tr3 := tr2 ++ [Call.set_sample_type cfg.sample_type]
      if r3 ≠ HYDRASDR_SUCCESS then (r3, tr3, false)
      else
        let r4 := env tr3 (Call.set_linearity_gain cfg.gain)
        let tr4 := tr3 ++ [Call.set_linearity_gain cfg.gain]
        if r4 ≠ HYDRASDR_SUCCESS then (r4, tr4, false)
        else
          let r5 := env tr4 (Call.set_rf_bias cfg.bias)
          let tr5 := tr4 ++ [Call.set_rf_bias cfg.bias]
          if r5 ≠ HYDRASDR_SUCCESS then (r5, tr5, false)
          else
            let tr6 := tr5 ++ [Call.fopen cfg.filename]
            if env tr5 (Call.fopen cfg.filename) = 0 then (r5, tr6, false)
            else
              let r7 := env tr6 Call.start_rx
              let tr7 := tr6 ++ [Call.start_rx]
              if r7 ≠ 0 then (r7, tr7, true)
              else (r7, monitor env polls tr7, true)

/-- `main` of `hydrasdr_async_rx.c`: the exit status and the trace. `argv` is `argv[1 ..]`;
`polls` is the number of passes of the monitoring loop before a signal requests shutdown. -/
def main (env : Env) (polls : Nat) (argv : List (List Char)) : Int × List Call :=
  match parse_args Config.default argv with
  | Parsed.help => (0, [Call.print_usage])
  | Parsed.unknown => (1, [Call.print_usage])
  | Parsed.run cfg =>
    if env [] Call.dev_open ≠ HYDRASDR_SUCCESS then (EXIT_FAILURE, [Call.dev_open])
    else
      let r := configure_and_stream env polls cfg (list_samplerates env [Call.dev_open])
      let tr := r.2.1 ++ [Call.stop_rx, Call.dev_close]
      let tr := if r.2.2 then tr ++ [Call.fclose] else tr
      (if r.1 = HYDRASDR_SUCCESS then EXIT_SUCCESS else EXIT_FAILURE, tr)

/-- An outside world in which every call succeeds: statuses are `HYDRASDR_SUCCESS`, no
sample rate is listed, `fopen` gives a stream, the device keeps streaming. -/
def env_ok : Env := fun _ c =>
  match c with
  | Call.fopen _ => 1
  | Call.is_streaming => HYDRASDR_TRUE
  | Call.malloc => 1
  | _ => HYDRASDR_SUCCESS

/-- An outside world like `env_ok` in which the output file cannot be opened. -/
def env_no_file : Env := fun _ c =>
  match c with
  | Call.fopen _ => 0
  | Call.is_streaming => HYDRASDR_TRUE
  | Call.malloc => 1
  | _ => HYDRASDR_SUCCESS

end AsyncRx

/-! ## Capture tool: the calls of the setup sequence -/

namespace AsyncRx

/-- The calls `main` makes between "Apply Configuration" and the monitoring loop when
nothing fails, in program order: the five configuration calls, `fopen`, `start_rx`. -/
def setup_calls (cfg : Config) : List Call :=
  [Call.set_freq cfg.freq_hz, Call.set_samplerate cfg.samplerate,
   Call.set_sample_type cfg.sample_type, Call.set_linearity_gain cfg.gain,
   Call.set_rf_bias cfg.bias, Call.fopen cfg.filename, Call.start_rx]

/-- Whether the answer to a setup call lets `main` go on: a non-NULL stream for `fopen`,
the status 0 (`HYDRASDR_SUCCESS`) for a device call. -/
def answer_ok (env : Env) (tr : List Call) (c : Call) : Prop :=
  match c with
  | Call.fopen _ => env tr c ≠ 0
  | _ => env tr c = HYDRASDR_SUCCESS

/-- Whether the `j`-th setup call (from 0), made right after the `j` calls before it on
top of the trace `tr`, is answered with success. -/
def setup_ok (env : Env) (cfg : Config) (tr : List Call) (j : Nat) : Prop :=
  match (setup_calls cfg)[j]? with
  | some c => answer_ok env (tr ++ (setup_calls cfg).take j) c
  | none => True

/-- The requested sample type lies in `0 .. HYDRASDR_SAMPLE_END - 1`. -/
def sample_type_valid (cfg : Config) : Prop :=
  0 ≤ cfg.sample_type ∧ cfg.sample_type < HYDRASDR_SAMPLE_END

/-- An outside world like `env_ok` in which `hydrasdr_set_linearity_gain` fails. -/
def env_gain_fails : Env := fun _ c =>
  match c with
  | Call.fopen _ => 1
  | Call.is_streaming => HYDRASDR_TRUE
  | Call.malloc => 1
  | Call.set_linearity_gain _ => -1
  | _ => HYDRASDR_SUCCESS

end AsyncRx

/-! ## Info tool -/

namespace InfoTool

/-- `HYDRASDR_MAX_DEVICE` of `hydrasdr_info.c`. -/
def HYDRASDR_MAX_DEVICE : Nat := 32

/-- What the info tool does that is visible outside it: the device library calls it makes
(with the index `i` of the slot `devices[i]` they act on) and the parts of the report it
prints. -/
inductive Ev where
  | usage
  | lib_version
  | open_sn (i : Nat) (serial : Nat)
  | open_first (i : Nat)
  | print_open_error
  | print_found_board (i : Nat)
  | board_id_read (i : Nat)
  | print_board_id (i : Nat)
  | version_string_read (i : Nat)
  | print_firmware_version (i : Nat)
  | board_partid_serialno_read (i : Nat)
  | print_part_id_serial (i : Nat)
  | get_samplerates_count (i : Nat)
  | get_samplerates_list (i : Nat)
  | print_samplerates (i : Nat)
  | print_close_board (i : Nat)
  | close (i : Nat)
  deriving DecidableEq, Repr

/-- The device library as the info tool sees it: given what happened so far and the call
made now, the status the call returns. -/
abbrev Device := List Ev → Ev → Int

/-- An option as `getopt(argc, argv, "s:")` hands it to `main`: `-s` with its argument, or
anything else (the `default` arm of the `switch`). -/
inductive Opt where
  | s (optarg : List Char)
  | other
  deriving DecidableEq, Repr

/-- The first `while` loop of `main`: `none` when the loop falls through, with the flag
`serial_number` and `serial_number_val`; `some code` when `main` returns from inside it
after printing the usage text. `parse_u64` is the one of `hydrasdr_gpio.c`, which the
info tool repeats word for word. -/
def parse_options : Bool × Nat → List Opt → Except Int (Bool × Nat)
  | sn, [] => Except.ok sn
  | sn, Opt.s optarg :: os =>
    let r := GpioTool.parse_u64 optarg sn.2
    if r.1 ≠ HYDRASDR_SUCCESS then Except.error EXIT_FAILURE
    else parse_options (true, r.2) os
  | _, Opt.other :: _ => Except.error EXIT_FAILURE

/-- The call that opens slot `i`. -/
def open_call (sn : Bool × Nat) (i : Nat) : Ev :=
  if sn.1 then Ev.open_sn i sn.2 else Ev.open_first i

/-- The first `for` loop of `main`, from slot `i` on with `fuel` slots left: the number of
slots opened (`devices[0 .. n-1]` are the non-NULL entries, the library leaving a slot
NULL when the open fails) and the trace. The loop is left at the first failure, which is
printed to `stderr` when it is that of slot 0. -/
def open_loop (dev : Device) (sn : Bool × Nat) : Nat → Nat → List Ev → Nat × List Ev
  | 0, i, tr => (i, tr)
  | fuel + 1, i, tr =>
    let c := open_call sn i
    if dev tr c ≠ HYDRASDR_SUCCESS then
      (i, if i = 0 then tr ++ [c, Ev.print_open_error] else tr ++ [c])
    else open_loop dev sn fuel (i + 1) (tr ++ [c])

/-- The body of the second `for` loop of `main` for one opened device: the report of
board `i`, each failed read leaving the body through `continue`. -/
def report_board (dev : Device) (tr : List Ev) (i : Nat) : List Ev :=
  let tr0 := tr ++ [Ev.print_found_board i]
  let tr1 := tr0 ++ [Ev.board_id_read i]
  if dev tr0 (Ev.board_id_read i) ≠ HYDRASDR_SUCCESS then tr1
  else
    let tr2 := tr1 ++ [Ev.print_board_id i]
    let tr3 := tr2 ++ [Ev.version_string_read i]
    if dev tr2 (Ev.version_string_read i) ≠ HYDRASDR_SUCCESS then tr3
    else
      let tr4 := tr3 ++ [Ev.print_firmware_version i]
      let tr5 := tr4 ++ [Ev.board_partid_serialno_read i]
      if dev tr4 (Ev.board_partid_serialno_read i) ≠ HYDRASDR_SUCCESS then tr5
      else
        tr5 ++ [Ev.print_part_id_serial i, Ev.get_samplerates_count i,
                Ev.get_samplerates_list i, Ev.print_samplerates i,
                Ev.print_close_board i, Ev.close i]

/-- The second `for` loop of `main` over the slots still to visit; `n` slots are open. -/
def report_loop (dev : Device) (n : Nat) : List Nat → List Ev → List Ev
  | [], tr => tr
  | i :: is, tr =>
    if i < n then report_loop dev n is (report_board dev tr i)
    else report_loop dev n is tr

/-- `main` of `hydrasdr_info.c`: the exit status and the trace. -/
def main (dev : Device) (opts : List Opt) : Int × List Ev :=
  match parse_options (false, 0) opts with
  | Except.error code => (code, [Ev.usage])
  | Except.ok sn =>
    let o := open_loop dev sn HYDRASDR_MAX_DEVICE 0 [Ev.lib_version]
    (EXIT_SUCCESS, report_loop dev o.1 (List.range HYDRASDR_MAX_DEVICE) o.2)

/-- Whether an event is part of a board report: the "Found HydraSDR board" line, a field
read or a printed field. -/
def is_report : Ev → Bool
  | Ev.usage => false
  | Ev.lib_version => false
  | Ev.open_sn _ _ => false
  | Ev.open_first _ => false
  | Ev.print_open_error => false
  | Ev.close _ => false
  | _ => true

/-- A device library with no board attached: every open fails with status -5. -/
def dev_none : Device := fun _ e =>
  match e with
  | Ev.open_sn _ _ => -5
  | Ev.open_first _ => -5
  | _ => HYDRASDR_SUCCESS

/-- A device library with one board attached (the second open fails) on which every other
call succeeds. -/
def dev_one : Device := fun _ e =>
  match e with
  | Ev.open_sn i _ => if i = 0 then HYDRASDR_SUCCESS else -5
  | Ev.open_first i => if i = 0 then HYDRASDR_SUCCESS else -5
  | _ => HYDRASDR_SUCCESS

/-- A device library with one board attached on which the call `bad` fails with status -1
and every other call succeeds. -/
def dev_one_bad (bad : Ev) : Device := fun tr e =>
  if e = bad then -1 else dev_one tr e

end InfoTool

/-! ## Theorems: capture tool callback -/

namespace AsyncRx

/-- C1. `bytes_per_sample` returns 8 for FLOAT32_IQ, 4 for FLOAT32_REAL, 4 for INT16_IQ,
2 for INT16_REAL, 2 for UINT16_REAL and 2 for RAW, and on each of these six recognised
sample types the result is not zero. -/
theorem bytes_per_sample_table :
    bytes_per_sample HYDRASDR_SAMPLE_FLOAT32_IQ = 8 ∧
    bytes_per_sample HYDRASDR_SAMPLE_FLOAT32_REAL = 4 ∧
    bytes_per_sample HYDRASDR_SAMPLE_INT16_IQ = 4 ∧
    bytes_per_sample HYDRASDR_SAMPLE_INT16_REAL = 2 ∧
    bytes_per_sample HYDRASDR_SAMPLE_UINT16_REAL = 2 ∧
    bytes_per_sample HYDRASDR_SAMPLE_RAW = 2 ∧
    ∀ type : Int, 0 ≤ type → type < HYDRASDR_SAMPLE_END → bytes_per_sample type ≠ 0 := by
  refine ⟨by decide, by decide, by decide, by decide, by decide, by decide, ?_⟩
  intro type _ _
  unfold bytes_per_sample
  split_ifs <;> decide

/-! ### Step lemmas for `rx_callback` -/

theorem rx_callback_exit_requested (g : Globals) (t : Transfer) (w : Nat)
    (h : g.g_exit_requested = true) : rx_callback g t w = (g, 0) := by
  simp [rx_callback, h]

theorem rx_callback_keeps_flag (g : Globals) (t : Transfer) (w : Nat) :
    (rx_callback g t w).1.g_exit_requested = g.g_exit_requested := by
  unfold rx_callback
  cases h : g.g_exit_requested
  · simp only [Bool.false_eq_true, if_false]
    cases hout : g.g_out <;> by_cases hd : t.dropped_samples = 0 <;>
      by_cases hc : chunk_bytes t > 0 <;> simp [hout, hd, hc, h]
  · simp [h]

theorem rx_callback_total_bytes (g : Globals) (t : Transfer) (w : Nat)
    (h : g.g_exit_requested = false) :
    (rx_callback g t w).1.g_total_bytes = (g.g_total_bytes + chunk_bytes t) % U64 := by
  unfold rx_callback
  simp only [h, Bool.false_eq_true, if_false]
  cases hout : g.g_out <;> by_cases hd : t.dropped_samples = 0 <;>
    by_cases hc : chunk_bytes t > 0 <;> simp [hout, hd, hc]

theorem rx_callback_total_dropped (g : Globals) (t : Transfer) (w : Nat)
    (h : g.g_exit_requested = false) (hg : g.g_total_dropped_samples < U64) :
    (rx_callback g t w).1.g_total_dropped_samples
      = (g.g_total_dropped_samples + t.dropped_samples) % U64 := by
  unfold rx_callback
  simp only [h, Bool.false_eq_true, if_false]
  cases hout : g.g_out <;> by_cases hd : t.dropped_samples = 0 <;>
    by_cases hc : chunk_bytes t > 0 <;> simp [hout, hd, hc, Nat.mod_eq_of_lt hg]

theorem chunk_bytes_exact (t : Transfer) (h0 : 0 ≤ t.sample_count)
    (h1 : t.sample_count < 2 ^ 31) :
    chunk_bytes t = t.sample_count.toNat * bytes_per_sample t.sample_type := by
  obtain ⟨n, hn⟩ := Int.eq_ofNat_of_zero_le h0
  have hn31 : n < 2 ^ 31 := by
    have : (n : Int) < 2 ^ 31 := hn ▸ h1
    exact_mod_cast this
  have hb : bytes_per_sample t.sample_type ≤ 8 := by
    unfold bytes_per_sample
    split_ifs <;> decide
  have hcast : to_size_t t.sample_count = n := by
    unfold to_size_t
    rw [hn]
    have hlt : n < U64 := lt_trans hn31 (by decide)
    have : ((n : Int) % (U64 : Int)) = ((n % U64 : Nat) : Int) := by
      exact_mod_cast rfl
    rw [this, Int.toNat_ofNat, Nat.mod_eq_of_lt hlt]
  unfold chunk_bytes
  rw [hcast, hn, Int.toNat_ofNat]
  apply Nat.mod_eq_of_lt
  calc n * bytes_per_sample t.sample_type
      ≤ 2 ^ 31 * 8 := Nat.mul_le_mul (le_of_lt hn31) hb
    _ < U64 := by decide

theorem signal_handler_idem (g : Globals) (h : g.g_exit_requested = true) :
    posix_signal_handler g = g := by
  cases g
  simp_all [posix_signal_handler]

theorem step_after_shutdown (g : Globals) (e : Event) (h : g.g_exit_requested = true) :
    step g e = g := by
  cases e with
  | deliver t w => simp [step, rx_callback_exit_requested g t w h]
  | shutdown => exact signal_handler_idem g h

theorem run_after_shutdown (g : Globals) (es : List Event)
    (h : g.g_exit_requested = true) : run g es = g := by
  induction es with
  | nil => rfl
  | cons e es ih =>
    show run (step g e) es = g
    rw [step_after_shutdown g e h]
    exact ih

theorem run_cons (g : Globals) (e : Event) (es : List Event) :
    run g (e :: es) = run (step g e) es := rfl

theorem run_deliveries_total_bytes (ds : List (Transfer × Nat)) :
    ∀ g : Globals, g.g_exit_requested = false → g.g_total_bytes < U64 →
      (∀ d ∈ ds, 0 ≤ d.1.sample_count ∧ d.1.sample_count < 2 ^ 31) →
      (run g (ds.map fun d => Event.deliver d.1 d.2)).g_total_bytes
        = (g.g_total_bytes + total_chunk_bytes (ds.map Prod.fst)) % U64 := by
  induction ds with
  | nil =>
    intro g _ hg _
    simp [run, total_chunk_bytes, Nat.mod_eq_of_lt hg]
  | cons d ds ih =>
    intro g hflag _ hn
    have hd := hn d (List.mem_cons_self _ _)
    have hstep : (step g (Event.deliver d.1 d.2)).g_total_bytes
        = (g.g_total_bytes + chunk_bytes d.1) % U64 :=
      rx_callback_total_bytes g d.1 d.2 hflag
    have hflag1 : (step g (Event.deliver d.1 d.2)).g_exit_requested = false := by
      show (rx_callback g d.1 d.2).1.g_exit_requested = false
      rw [rx_callback_keeps_flag, hflag]
    have hlt : (step g (Event.deliver d.1 d.2)).g_total_bytes < U64 := by
      rw [hstep]
      exact Nat.mod_lt _ (by decide)
    have := ih (step g (Event.deliver d.1 d.2)) hflag1 hlt
      (fun x hx => hn x (List.mem_cons_of_mem _ hx))
    simp only [List.map_cons, run_cons]
    rw [this, hstep, chunk_bytes_exact d.1 hd.1 hd.2]
    simp only [total_chunk_bytes, List.map_cons, List.sum_cons, List.map_map]
    rw [Nat.mod_add_mod, Nat.add_assoc]

theorem run_total_dropped (es : List Event) :
    ∀ g : Globals, g.g_total_dropped_samples < U64 →
      (run g es).g_total_dropped_samples
        = if g.g_exit_requested then g.g_total_dropped_samples
          else (g.g_total_dropped_samples
                  + total_dropped (deliveries (before_shutdown es))) % U64 := by
  induction es with
  | nil =>
    intro g hg
    by_cases hf : g.g_exit_requested = true
    · simp [run, hf]
    · simp [run, hf, deliveries, before_shutdown, total_dropped, Nat.mod_eq_of_lt hg]
  | cons e es ih =>
    intro g hg
    by_cases hf : g.g_exit_requested = true
    · rw [run_after_shutdown g _ hf]
      simp [hf]
    · have hf0 : g.g_exit_requested = false := by simpa using hf
      cases e with
      | deliver t w =>
        have hstep := rx_callback_total_dropped g t w hf0 hg
        have hflag1 : (step g (Event.deliver t w)).g_exit_requested = false := by
          show (rx_callback g t w).1.g_exit_requested = false
          rw [rx_callback_keeps_flag, hf0]
        have hlt : (step g (Event.deliver t w)).g_total_dropped_samples < U64 := by
          show (rx_callback g t w).1.g_total_dropped_samples < U64
          rw [hstep]
          exact Nat.mod_lt _ (by decide)
        rw [run_cons, ih _ hlt]
        simp only [hflag1, hf0, Bool.false_eq_true, if_false]
        show ((rx_callback g t w).1.g_total_dropped_samples + _) % U64 = _
        rw [hstep]
        simp only [before_shutdown, deliveries, total_dropped, List.map_cons, List.sum_cons]
        rw [Nat.mod_add_mod, Nat.add_assoc]
      | shutdown =>
        rw [run_cons, run_after_shutdown _ _ (by simp [step, posix_signal_handler])]
        simp [step, posix_signal_handler, hf0, before_shutdown, deliveries, total_dropped,
          Nat.mod_eq_of_lt hg]

/-! ### The claims about `rx_callback` -/

/-- C2. For every sample type and every sample count `n ≥ 0` (a C `int`), `rx_callback`
invoked while shutdown is not requested computes the chunk length `n * bytes_per_sample
type`, and after any `k` such invocations the byte counter `g_total_bytes` is its starting
value plus the sum of the `k` chunk lengths, whatever the file (open or not) and whatever
each `fwrite` answers. The counter is a `uint64_t`: the sum is taken modulo `2^64`, and is
the exact sum whenever that is below `2^64`. -/
theorem rx_callback_byte_counter (g : Globals) (ds : List (Transfer × Nat))
    (hflag : g.g_exit_requested = false) (hg : g.g_total_bytes < U64)
    (hn : ∀ d ∈ ds, 0 ≤ d.1.sample_count ∧ d.1.sample_count < 2 ^ 31) :
    (∀ d ∈ ds, chunk_bytes d.1
        = d.1.sample_count.toNat * bytes_per_sample d.1.sample_type) ∧
    (run g (ds.map fun d => Event.deliver d.1 d.2)).g_total_bytes
      = (g.g_total_bytes + total_chunk_bytes (ds.map Prod.fst)) % U64 ∧
    (g.g_total_bytes + total_chunk_bytes (ds.map Prod.fst) < U64 →
      (run g (ds.map fun d => Event.deliver d.1 d.2)).g_total_bytes
        = g.g_total_bytes + total_chunk_bytes (ds.map Prod.fst)) := by
  have hmod := run_deliveries_total_bytes ds g hflag hg hn
  refine ⟨fun d hd => chunk_bytes_exact d.1 (hn d hd).1 (hn d hd).2, hmod, ?_⟩
  intro hfit
  rw [hmod, Nat.mod_eq_of_lt hfit]

/-- C2, witness. One delivery of 2,000,000 INT16_IQ samples to a freshly opened file, fully
written: the chunk is 8,000,000 bytes, the counter rises from 0 to 8,000,000 and the file
holds 8,000,000 bytes. -/
theorem rx_callback_byte_counter_witness :
    chunk_bytes delivery_2M = 8000000 ∧
    (run (Globals.start (some 0)) [Event.deliver delivery_2M 8000000]).g_total_bytes
      = 8000000 ∧
    (run (Globals.start (some 0)) [Event.deliver delivery_2M 8000000]).g_out
      = some 8000000 := by
  have h := rx_callback_byte_counter (Globals.start (some 0)) [(delivery_2M, 8000000)]
    rfl (by decide) (by decide)
  refine ⟨?_, ?_, by decide⟩
  · rw [h.1 (delivery_2M, 8000000) (List.mem_singleton.mpr rfl)]
    decide
  · have h3 := h.2.2 (by decide)
    simp only [List.map_cons, List.map_nil] at h3
    rw [h3]
    decide

/-- C3, as stated, fails. A delivery made after the shutdown request reports 5 dropped
samples, and the counter stays at its starting value 0 instead of becoming 0 + 5. -/
theorem dropped_counter_counterexample :
    (run (Globals.start (some 0))
        [Event.shutdown,
         Event.deliver { sample_count := 0, dropped_samples := 5,
                         sample_type := HYDRASDR_SAMPLE_INT16_IQ } 0]).g_total_dropped_samples
      ≠ (Globals.start (some 0)).g_total_dropped_samples
        + total_dropped (deliveries
            [Event.shutdown,
             Event.deliver { sample_count := 0, dropped_samples := 5,
                             sample_type := HYDRASDR_SAMPLE_INT16_IQ } 0]) := by
  decide

/-- C3, amended. For every sequence of `rx_callback` invocations and shutdown requests of
a run, the dropped-sample counter afterwards is its starting value plus the sum of the
`dropped_samples` fields of the transfers delivered while shutdown was not yet requested
(those before the first shutdown request, none if the flag was set from the start); the
counter is a `uint64_t`, so the sum is taken modulo `2^64` and is exact below `2^64`. -/
theorem dropped_counter_until_shutdown (g : Globals) (es : List Event)
    (hg : g.g_total_dropped_samples < U64) :
    (g.g_exit_requested = true →
      (run g es).g_total_dropped_samples = g.g_total_dropped_samples) ∧
    (g.g_exit_requested = false →
      (run g es).g_total_dropped_samples
        = (g.g_total_dropped_samples
            + total_dropped (deliveries (before_shutdown es))) % U64 ∧
      (g.g_total_dropped_samples + total_dropped (deliveries (before_shutdown es)) < U64 →
        (run g es).g_total_dropped_samples
          = g.g_total_dropped_samples
            + total_dropped (deliveries (before_shutdown es)))) := by
  have h := run_total_dropped es g hg
  constructor
  · intro hf
    rw [h, hf]
    rfl
  · intro hf
    rw [hf] at h
    simp only [Bool.false_eq_true, if_false] at h
    refine ⟨h, fun hfit => ?_⟩
    rw [h, Nat.mod_eq_of_lt hfit]

/-- C3 amended, witness. Two deliveries reporting 3 and 4 dropped samples, a shutdown
request, then a delivery reporting 5: the counter ends at 7. -/
theorem dropped_counter_until_shutdown_witness :
    (run (Globals.start none)
      [Event.deliver { sample_count := 10, dropped_samples := 3, sample_type := 2 } 0,
       Event.deliver { sample_count := 10, dropped_samples := 4, sample_type := 2 } 0,
       Event.shutdown,
       Event.deliver { sample_count := 10, dropped_samples := 5, sample_type := 2 } 0]
      ).g_total_dropped_samples = 7 := by
  have h := (dropped_counter_until_shutdown (Globals.start none)
      [Event.deliver { sample_count := 10, dropped_samples := 3, sample_type := 2 } 0,
       Event.deliver { sample_count := 10, dropped_samples := 4, sample_type := 2 } 0,
       Event.shutdown,
       Event.deliver { sample_count := 10, dropped_samples := 5, sample_type := 2 } 0]
      (by decide)).2 rfl
  rw [h.2 (by decide)]
  decide

/-- C4. Once the shutdown flag is set, every later `rx_callback` invocation returns at
once: for every transfer and every `fwrite` answer it issues no `fwrite`, appends nothing
to the output file and leaves the byte counter (indeed all globals) unchanged; and no
invocation clears the flag, so the same holds after any further sequence of deliveries and
shutdown requests. -/
theorem rx_callback_noop_after_shutdown (g : Globals) (h : g.g_exit_requested = true) :
    (∀ (t : Transfer) (w : Nat),
      (rx_callback g t w).1.fwrites = g.fwrites ∧
      (rx_callback g t w).1.g_out = g.g_out ∧
      (rx_callback g t w).1.g_total_bytes = g.g_total_bytes ∧
      (rx_callback g t w).1.g_exit_requested = true) ∧
    (∀ es : List Event,
      (run g es).fwrites = g.fwrites ∧
      (run g es).g_out = g.g_out ∧
      (run g es).g_total_bytes = g.g_total_bytes ∧
      (run g es).g_exit_requested = true) ∧
    (∀ (g0 : Globals) (t : Transfer) (w : Nat),
      g0.g_exit_requested = true → (rx_callback g0 t w).1.g_exit_requested = true) := by
  refine ⟨fun t w => ?_, fun es => ?_, fun g0 t w h0 => ?_⟩
  · rw [rx_callback_exit_requested g t w h]
    exact ⟨rfl, rfl, rfl, h⟩
  · rw [run_after_shutdown g es h]
    exact ⟨rfl, rfl, rfl, h⟩
  · rw [rx_callback_keeps_flag, h0]

/-- C4, witness. After a shutdown request, a delivery of 2,000,000 INT16_IQ samples to an
open file that already holds 16 bytes issues no `fwrite`, leaves the file at 16 bytes and
the byte counter at 16, and the flag stays set. -/
theorem rx_callback_noop_after_shutdown_witness :
    (rx_callback (posix_signal_handler { Globals.start (some 16) with g_total_bytes := 16 })
        delivery_2M 8000000).1.fwrites = [] ∧
    (rx_callback (posix_signal_handler { Globals.start (some 16) with g_total_bytes := 16 })
        delivery_2M 8000000).1.g_out = some 16 ∧
    (rx_callback (posix_signal_handler { Globals.start (some 16) with g_total_bytes := 16 })
        delivery_2M 8000000).1.g_total_bytes = 16 ∧
    (rx_callback (posix_signal_handler { Globals.start (some 16) with g_total_bytes := 16 })
        delivery_2M 8000000).1.g_exit_requested = true :=
  (rx_callback_noop_after_shutdown
    (posix_signal_handler { Globals.start (some 16) with g_total_bytes := 16 }) rfl).1
    delivery_2M 8000000

/-! ### Exit status of `main` -/

theorem main_open_failure (env : Env) (polls : Nat) (argv : List (List Char))
    (cfg : Config) (hargs : parse_args Config.default argv = Parsed.run cfg)
    (h : env [] Call.dev_open ≠ HYDRASDR_SUCCESS) :
    main env polls argv = (EXIT_FAILURE, [Call.dev_open]) := by
  simp [main, hargs, h]

theorem main_help (env : Env) (polls : Nat) (argv : List (List Char))
    (hargs : parse_args Config.default argv = Parsed.help) :
    main env polls argv = (0, [Call.print_usage]) := by
  simp [main, hargs]

/-- With the device open, `main` returns `EXIT_SUCCESS` exactly when `ret` holds
`HYDRASDR_SUCCESS` at the label `error`. -/
theorem main_exit_status (env : Env) (polls : Nat) (argv : List (List Char))
    (cfg : Config) (hargs : parse_args Config.default argv = Parsed.run cfg)
    (hopen : env [] Call.dev_open = HYDRASDR_SUCCESS) :
    (main env polls argv).1
      = if (configure_and_stream env polls cfg
              (list_samplerates env [Call.dev_open])).1 = HYDRASDR_SUCCESS
        then EXIT_SUCCESS else EXIT_FAILURE := by
  simp [main, hargs, hopen]

/-- The failure paths on which `ret` is assigned: when a configuration call or the start
of streaming is the first call to fail, `ret` is not `HYDRASDR_SUCCESS` at the label
`error`, so that `main` returns `EXIT_FAILURE`. -/
theorem configure_and_stream_failure (env : Env) (polls : Nat) (cfg : Config)
    (tr : List Call) :
    (env tr (Call.set_freq cfg.freq_hz) ≠ HYDRASDR_SUCCESS →
      (configure_and_stream env polls cfg tr).1 ≠ HYDRASDR_SUCCESS) ∧
    (env tr (Call.set_freq cfg.freq_hz) = HYDRASDR_SUCCESS →
      env (tr ++ [Call.set_freq cfg.freq_hz]) (Call.set_samplerate cfg.samplerate)
        ≠ HYDRASDR_SUCCESS →
      (configure_and_stream env polls cfg tr).1 ≠ HYDRASDR_SUCCESS) ∧
    (env tr (Call.set_freq cfg.freq_hz) = HYDRASDR_SUCCESS →
      env (tr ++ [Call.set_freq cfg.freq_hz]) (Call.set_samplerate cfg.samplerate)
        = HYDRASDR_SUCCESS →
      ¬ (cfg.sample_type < 0 ∨ cfg.sample_type ≥ HYDRASDR_SAMPLE_END) →
      env (tr ++ [Call.set_freq cfg.freq_hz] ++ [Call.set_samplerate cfg.samplerate])
        (Call.set_sample_type cfg.sample_type) ≠ HYDRASDR_SUCCESS →
      (configure_and_stream env polls cfg tr).1 ≠ HYDRASDR_SUCCESS) ∧
    (env tr (Call.set_freq cfg.freq_hz) = HYDRASDR_SUCCESS →
      env (tr ++ [Call.set_freq cfg.freq_hz]) (Call.set_samplerate cfg.samplerate)
        = HYDRASDR_SUCCESS →
      (cfg.sample_type < 0 ∨ cfg.sample_type ≥ HYDRASDR_SAMPLE_END) →
      configure_and_stream env polls cfg tr
        = (HYDRASDR_SUCCESS,
           tr ++ [Call.set_freq cfg.freq_hz] ++ [Call.set_samplerate cfg.samplerate],
           false)) := by
  refine ⟨fun h1 => ?_, fun h1 h2 => ?_, fun h1 h2 ht h3 => ?_, fun h1 h2 ht => ?_⟩
  · simp only [configure_and_stream, h1, ne_eq, not_false_eq_true, if_true]
  · simp only [configure_and_stream, h1, ne_eq, not_true_eq_false, if_false, h2,
      not_false_eq_true, if_true]
  · simp only [configure_and_stream, h1, ne_eq, not_true_eq_false, if_false, h2, ht, h3,
      not_false_eq_true, if_true]
  · simp only [configure_and_stream, h1, ne_eq, not_true_eq_false, if_false, h2, ht,
      if_true]

/-- C10: the code at two failing inputs. With `-t -1` (a sample type out of range) on a
device whose calls all succeed, `main` skips `set_sample_type`, never opens the file nor
starts streaming, and returns `EXIT_SUCCESS`: `ret` still holds the status of
`hydrasdr_set_samplerate`. With an output file that cannot be opened, `main` never starts
streaming and returns `EXIT_SUCCESS` as well: `ret` holds the status of
`hydrasdr_set_rf_bias`. -/
theorem main_exit_status_on_setup_error :
    (main env_ok 2 ["-t".toList, "-1".toList]
      = (EXIT_SUCCESS,
         [Call.dev_open, Call.get_samplerates_count, Call.set_freq 100000000,
          Call.set_samplerate 2500000, Call.stop_rx, Call.dev_close])) ∧
    (main env_no_file 2 ["-o".toList, "/no/such/dir/capture.bin".toList]
      = (EXIT_SUCCESS,
         [Call.dev_open, Call.get_samplerates_count, Call.set_freq 100000000,
          Call.set_samplerate 2500000, Call.set_sample_type 2, Call.set_linearity_gain 10,
          Call.set_rf_bias 0, Call.fopen "/no/such/dir/capture.bin".toList,
          Call.stop_rx, Call.dev_close])) := by
  decide

end AsyncRx

/-! ## Lemmas: the C library scanners -/

namespace CLib

theorem drop_takeWhile_length (p : Char → Bool) (s : List Char) :
    s.drop (s.takeWhile p).length = s.dropWhile p := by
  induction s with
  | nil => rfl
  | cons c cs ih =>
    by_cases h : p c = true
    · simp [List.takeWhile, List.dropWhile, h, ih]
    · simp [List.takeWhile, List.dropWhile, h]

theorem digits_len_le (base : Nat) (cs : List Char) : digits_len base cs ≤ cs.length := by
  induction cs with
  | nil => simp [digits_len]
  | cons c cs ih =>
    unfold digits_len
    split_ifs
    · simpa using ih
    · simp

theorem digits_len_eq_length (base : Nat) (cs : List Char) :
    digits_len base cs = cs.length ↔ ∀ c ∈ cs, is_digit base c = true := by
  induction cs with
  | nil => simp [digits_len]
  | cons c cs ih =>
    unfold digits_len
    by_cases h : is_digit base c = true
    · simp [h, ih]
    · simp [h]

theorem sign_len_le (s : List Char) : sign_len s ≤ s.length := by
  unfold sign_len
  split <;> simp

theorem is_digit_ten (c : Char) :
    is_digit 10 c = true ↔ (48 ≤ c.toNat ∧ c.toNat ≤ 57) := by
  unfold is_digit digit_value
  split_ifs with h1 h2 h3
  · simp only [decide_eq_true_eq]
    constructor
    · intro _; exact h1
    · intro _; omega
  · simp only [decide_eq_true_eq]
    constructor
    · intro h; omega
    · intro h; omega
  · simp only [decide_eq_true_eq]
    constructor
    · intro h; omega
    · intro h; omega
  · simp only [Bool.false_eq_true, false_iff]
    exact h1

theorem digit_value_ten (c : Char) (h : is_digit 10 c = true) :
    (digit_value c).getD 0 = c.toNat - 48 := by
  have h' := (is_digit_ten c).mp h
  unfold digit_value
  simp [h']

theorem hex_prefix_len_of_ne (base : Nat) (hb : base ≠ 16) (s : List Char) :
    hex_prefix_len base s = 0 := by
  unfold hex_prefix_len
  split <;> simp [hb]

theorem length_takeWhile_add (p : Char → Bool) (s : List Char) :
    (s.takeWhile p).length + (s.dropWhile p).length = s.length := by
  rw [← List.length_append, List.takeWhile_append_dropWhile]

/-- For a base other than 16, the whole string is consumed by a conversion exactly when
what follows white space and sign is a non-empty run of digits. -/
theorem subject_whole (base : Nat) (hb : base ≠ 16) (s : List Char) :
    ((subject base s).consumed ≠ 0 ∧ (subject base s).consumed = s.length) ↔
      ((s.dropWhile isspace).drop (sign_len (s.dropWhile isspace)) ≠ [] ∧
        ∀ c ∈ (s.dropWhile isspace).drop (sign_len (s.dropWhile isspace)),
          is_digit base c = true) := by
  have hlen := length_takeWhile_add isspace s
  have hs := sign_len_le (s.dropWhile isspace)
  have hk := digits_len_le base ((s.dropWhile isspace).drop (sign_len (s.dropWhile isspace)))
  have hd : ((s.dropWhile isspace).drop (sign_len (s.dropWhile isspace))).length
      = (s.dropWhile isspace).length - sign_len (s.dropWhile isspace) := List.length_drop _ _
  rw [← digits_len_eq_length]
  unfold subject
  simp only [drop_takeWhile_length, hex_prefix_len_of_ne base hb, List.drop_zero, Nat.add_zero]
  by_cases hz : digits_len base
      ((s.dropWhile isspace).drop (sign_len (s.dropWhile isspace))) = 0
  · simp only [hz, if_true, ne_eq, not_true_eq_false, false_and, false_iff, not_and]
    intro hne h0
    exact hne (List.length_eq_zero.mp h0.symm)
  · simp only [hz, if_false]
    constructor
    · rintro ⟨_, h⟩
      refine ⟨fun hnil => ?_, by omega⟩
      rw [hnil] at hz
      exact hz rfl
    · rintro ⟨_, h⟩
      exact ⟨by omega, by omega⟩

theorem subject_whole_value (base : Nat) (hb : base ≠ 16) (s : List Char)
    (h : (s.dropWhile isspace).drop (sign_len (s.dropWhile isspace)) ≠ [] ∧
        ∀ c ∈ (s.dropWhile isspace).drop (sign_len (s.dropWhile isspace)),
          is_digit base c = true) :
    (subject base s).negative = is_negative (s.dropWhile isspace) ∧
    (subject base s).magnitude
      = digits_value base ((s.dropWhile isspace).drop (sign_len (s.dropWhile isspace))) := by
  have hk := (digits_len_eq_length base _).mpr h.2
  have hz : digits_len base
      ((s.dropWhile isspace).drop (sign_len (s.dropWhile isspace))) ≠ 0 := by
    rw [hk]
    exact fun h0 => h.1 (List.length_eq_zero.mp h0)
  unfold subject
  simp only [drop_takeWhile_length, hex_prefix_len_of_ne base hb, List.drop_zero, hz,
    if_false]
  rw [hk, List.take_length]
  exact ⟨trivial, rfl⟩

/-- The three shapes of a string with respect to its sign. -/
theorem sign_cases (s : List Char) :
    (∃ ds, s = '-' :: ds ∧ sign_len s = 1 ∧ is_negative s = true) ∨
    (∃ ds, s = '+' :: ds ∧ sign_len s = 1 ∧ is_negative s = false) ∨
    ((∀ ds, s ≠ '-' :: ds) ∧ (∀ ds, s ≠ '+' :: ds) ∧ sign_len s = 0 ∧
      is_negative s = false) := by
  match s with
  | [] => exact Or.inr (Or.inr ⟨by simp, by simp, rfl, rfl⟩)
  | c :: cs =>
    by_cases hm : c = '-'
    · subst hm
      exact Or.inl ⟨cs, rfl, rfl, rfl⟩
    · by_cases hp : c = '+'
      · subst hp
        exact Or.inr (Or.inl ⟨cs, rfl, rfl, rfl⟩)
      · refine Or.inr (Or.inr ⟨?_, ?_, ?_, ?_⟩)
        · intro ds h
          exact hm (List.cons.inj h).1
        · intro ds h
          exact hp (List.cons.inj h).1
        · unfold sign_len
          split
          · rename_i h; exact absurd (List.cons.inj h).1 hm
          · rename_i h; exact absurd (List.cons.inj h).1 hp
          · rfl
        · unfold is_negative
          split
          · rename_i h; exact absurd (List.cons.inj h).1 hm
          · rfl

/-- The code of a digit of a base up to 36 is that of `0`-`9` or of a letter. -/
theorem is_digit_code (base : Nat) (c : Char) (h : is_digit base c = true) :
    (48 ≤ c.toNat ∧ c.toNat ≤ 57 ∧ c.toNat - 48 < base) ∨
    (97 ≤ c.toNat ∧ c.toNat ≤ 122 ∧ c.toNat - 87 < base) ∨
    (65 ≤ c.toNat ∧ c.toNat ≤ 90 ∧ c.toNat - 55 < base) := by
  unfold is_digit digit_value at h
  split_ifs at h with h1 h2 h3
  · exact Or.inl ⟨h1.1, h1.2, by simpa using h⟩
  · exact Or.inr (Or.inl ⟨h2.1, h2.2, by simpa using h⟩)
  · exact Or.inr (Or.inr ⟨h3.1, h3.2, by simpa using h⟩)

theorem is_digit_not_space (base : Nat) (c : Char) (h : is_digit base c = true) :
    isspace c = false := by
  have hc := is_digit_code base c h
  unfold isspace
  simp only [Bool.or_eq_false_iff, decide_eq_false_iff_not, Bool.and_eq_false_imp,
    decide_eq_true_eq, not_le]
  omega

theorem is_digit_ne_of_code (base : Nat) (c d : Char) (h : is_digit base c = true)
    (hd : d.toNat < 48 ∨ (57 < d.toNat ∧ d.toNat < 65) ∨ (90 < d.toNat ∧ d.toNat < 97)
      ∨ 122 < d.toNat ∨ (97 ≤ d.toNat ∧ base + 87 ≤ d.toNat)
      ∨ (65 ≤ d.toNat ∧ d.toNat ≤ 90 ∧ base + 55 ≤ d.toNat)) : c ≠ d := by
  intro hcd
  subst hcd
  have hc := is_digit_code base c h
  omega

theorem takeWhile_isspace_digit (base : Nat) (c : Char) (cs : List Char)
    (h : is_digit base c = true) : (c :: cs).takeWhile isspace = [] := by
  simp [List.takeWhile, is_digit_not_space base c h]

theorem sign_len_digit (base : Nat) (c : Char) (cs : List Char)
    (h : is_digit base c = true) : sign_len (c :: cs) = 0 ∧ is_negative (c :: cs) = false := by
  have hm : c ≠ '-' := is_digit_ne_of_code base c '-' h (Or.inl (by decide))
  have hp : c ≠ '+' := is_digit_ne_of_code base c '+' h (Or.inl (by decide))
  constructor
  · unfold sign_len
    split
    · rename_i heq; exact absurd (List.cons.inj heq).1 hm
    · rename_i heq; exact absurd (List.cons.inj heq).1 hp
    · rfl
  · unfold is_negative
    split
    · rename_i heq; exact absurd (List.cons.inj heq).1 hm
    · rfl

/-- A string that starts with a digit and on which no `0x` is skipped: the conversion
takes the longest run of digits at its head. -/
theorem subject_digit_head (base : Nat) (c : Char) (cs : List Char)
    (h : is_digit base c = true) (hx : hex_prefix_len base (c :: cs) = 0) :
    subject base (c :: cs)
      = { negative := false,
          magnitude := digits_value base ((c :: cs).take (digits_len base (c :: cs))),
          consumed := digits_len base (c :: cs) } := by
  have hk : digits_len base (c :: cs) ≠ 0 := by
    simp [digits_len, h]
  unfold subject
  simp only [takeWhile_isspace_digit base c cs h, List.length_nil, List.drop_zero,
    (sign_len_digit base c cs h).1, (sign_len_digit base c cs h).2, hx, hk, if_false,
    Nat.zero_add]

/-- In a run of digits of a base up to 16 no `0x` is skipped. -/
theorem hex_prefix_len_digits (base : Nat) (hb : base ≤ 16) (ds : List Char)
    (hall : ∀ c ∈ ds, is_digit base c = true) : hex_prefix_len base ds = 0 := by
  unfold hex_prefix_len
  split
  · rename_i x h t
    have hxd : is_digit base x = true := hall x (by simp)
    have h1 : x ≠ 'x' :=
      is_digit_ne_of_code base x 'x' hxd (Or.inr (Or.inr (Or.inr (Or.inr (Or.inl
        ⟨by decide, by
          have : ('x' : Char).toNat = 120 := by decide
          omega⟩)))))
    have h2 : x ≠ 'X' :=
      is_digit_ne_of_code base x 'X' hxd (Or.inr (Or.inr (Or.inr (Or.inr (Or.inr
        ⟨by decide, by decide, by
          have : ('X' : Char).toNat = 88 := by decide
          omega⟩)))))
    simp [h1, h2]
  · rfl

/-- A non-empty run of digits of a base up to 16 is converted whole, to its value. -/
theorem subject_digits (base : Nat) (hb : base ≤ 16) (ds : List Char) (hne : ds ≠ [])
    (hall : ∀ c ∈ ds, is_digit base c = true) :
    subject base ds
      = { negative := false, magnitude := digits_value base ds, consumed := ds.length } := by
  match ds, hne, hall with
  | c :: cs, _, hall =>
    rw [subject_digit_head base c cs (hall c (List.mem_cons_self _ _))
      (hex_prefix_len_digits base hb _ hall),
      (digits_len_eq_length base (c :: cs)).mpr hall, List.take_length]

theorem digits_len_append_stop (base : Nat) (ds : List Char) (c : Char) (rest : List Char)
    (hall : ∀ d ∈ ds, is_digit base d = true) (hc : is_digit base c = false) :
    digits_len base (ds ++ c :: rest) = ds.length := by
  induction ds with
  | nil => simp [digits_len, hc]
  | cons d ds ih =>
    have hd := hall d (List.mem_cons_self _ _)
    have ih' := ih (fun x hx => hall x (List.mem_cons_of_mem _ hx))
    show digits_len base (d :: (ds ++ c :: rest)) = (d :: ds).length
    simp only [digits_len, hd, if_true, List.length_cons, ih']

/-- Digits, then a character that is no digit: unless a `0x` is skipped, the conversion
ends at that character, before the end of the string. -/
theorem subject_stops (base : Nat) (ds : List Char) (c : Char) (rest : List Char)
    (hne : ds ≠ []) (hall : ∀ d ∈ ds, is_digit base d = true)
    (hc : is_digit base c = false) (hx : hex_prefix_len base (ds ++ c :: rest) = 0) :
    (subject base (ds ++ c :: rest)).consumed = ds.length := by
  match ds, hne, hall with
  | d :: ds', _, hall =>
    have h := subject_digit_head base d (ds' ++ c :: rest)
      (hall d (List.mem_cons_self _ _)) hx
    rw [List.cons_append, h]
    exact digits_len_append_stop base (d :: ds') c rest hall hc

end CLib

/-! ## Theorems: GPIO tool -/

namespace GpioTool

open CLib

theorem decimal_digits_iff (ds : List Char) :
    decimal_digits ds = true ↔ ds ≠ [] ∧ ∀ c ∈ ds, is_digit 10 c = true := by
  unfold decimal_digits
  simp only [Bool.and_eq_true, Bool.not_eq_true', List.isEmpty_eq_false, List.all_eq_true,
    decide_eq_true_eq, is_digit_ten]

theorem foldl_digits_value (ds : List Char) (h : ∀ c ∈ ds, is_digit 10 c = true) :
    ∀ a : Nat, ds.foldl (fun a c => 10 * a + (c.toNat - 48)) a
      = ds.foldl (fun acc c => acc * 10 + (digit_value c).getD 0) a := by
  induction ds with
  | nil => intro a; rfl
  | cons c cs ih =>
    intro a
    simp only [List.foldl_cons]
    rw [digit_value_ten c (h c (List.mem_cons_self _ _)), Nat.mul_comm 10 a]
    exact ih (fun x hx => h x (List.mem_cons_of_mem _ hx)) _

theorem decimal_digits_value_eq (ds : List Char) (h : ∀ c ∈ ds, is_digit 10 c = true) :
    decimal_digits_value ds = digits_value 10 ds :=
  foldl_digits_value ds h 0

/-- The spec-side reading of a decimal integer, in terms of sign and digits. -/
theorem decimal_integer_eq (s : List Char) :
    decimal_integer s =
      if decimal_digits (s.drop (sign_len s)) = true then
        some (if is_negative s = true
              then -(decimal_digits_value (s.drop (sign_len s)) : Int)
              else (decimal_digits_value (s.drop (sign_len s)) : Int))
      else none := by
  rcases sign_cases s with ⟨ds, rfl, h1, h2⟩ | ⟨ds, rfl, h1, h2⟩ | ⟨hm, hp, h1, h2⟩
  · simp [decimal_integer, h1, h2]
  · simp [decimal_integer, h1, h2]
  · rw [h1, h2]
    unfold decimal_integer
    split
    · exact absurd rfl (hm _)
    · exact absurd rfl (hp _)
    · simp

/-- What `parse_u8` computes, in terms of sign and digits. -/
theorem parse_u8_eq (s : List Char) (old : Nat) :
    parse_u8 s old =
      if decimal_digits ((s.dropWhile isspace).drop (sign_len (s.dropWhile isspace))) = true
      then
        if is_negative (s.dropWhile isspace) = true then
          if decimal_digits_value
              ((s.dropWhile isspace).drop (sign_len (s.dropWhile isspace))) = 0
          then (HYDRASDR_SUCCESS, 0) else (HYDRASDR_ERROR_INVALID_PARAM, old)
        else
          if decimal_digits_value
              ((s.dropWhile isspace).drop (sign_len (s.dropWhile isspace))) < 256
          then (HYDRASDR_SUCCESS,
                decimal_digits_value
                  ((s.dropWhile isspace).drop (sign_len (s.dropWhile isspace))))
          else (HYDRASDR_ERROR_INVALID_PARAM, old)
      else (HYDRASDR_ERROR_INVALID_PARAM, old) := by
  have hw := subject_whole 10 (by decide) s
  unfold parse_u8 strtol
  simp only []
  by_cases hd : decimal_digits
      ((s.dropWhile isspace).drop (sign_len (s.dropWhile isspace))) = true
  · have hd' := (decimal_digits_iff _).mp hd
    have hv := subject_whole_value 10 (by decide) s hd'
    rw [if_pos (hw.mpr hd'), if_pos hd, hv.1, hv.2, ← decimal_digits_value_eq _ hd'.2]
    generalize decimal_digits_value
      ((s.dropWhile isspace).drop (sign_len (s.dropWhile isspace))) = m
    by_cases hneg : is_negative (s.dropWhile isspace) = true
    · simp only [hneg, if_true]
      by_cases hm : m = 0
      · subst hm
        simp
      · have h1 : ¬ (0 : Int) ≤ -(m : Int) := by omega
        have : ¬ ((0 : Int) ≤ (if -(m : Int) < -(2:Int)^63 then -(2:Int)^63
            else if (2:Int)^63 - 1 < -(m : Int) then (2:Int)^63 - 1 else -(m : Int))) := by
          norm_num
          split_ifs <;> omega
        simp only [hm, if_false]
        rw [if_neg (fun h => this h.1)]
    · simp only [hneg, Bool.false_eq_true, if_false]
      by_cases hm : m < 256
      · have e : (if (m : Int) < -(2:Int)^63 then -(2:Int)^63
            else if (2:Int)^63 - 1 < (m : Int) then (2:Int)^63 - 1 else (m : Int)) = (m : Int) := by
          norm_num
          split_ifs <;> omega
        rw [e]
        have h0 : (0 : Int) ≤ (m : Int) ∧ (m : Int) < 256 := ⟨by omega, by omega⟩
        rw [if_pos h0, if_pos hm, Int.toNat_ofNat, Nat.mod_eq_of_lt hm]
      · have : ¬ ((if (m : Int) < -(2:Int)^63 then -(2:Int)^63
            else if (2:Int)^63 - 1 < (m : Int) then (2:Int)^63 - 1 else (m : Int)) < 256) := by
          norm_num
          split_ifs <;> omega
        rw [if_neg (fun h => this h.2), if_neg hm]
  · have hd' : ¬ ((s.dropWhile isspace).drop (sign_len (s.dropWhile isspace)) ≠ [] ∧
        ∀ c ∈ (s.dropWhile isspace).drop (sign_len (s.dropWhile isspace)),
          is_digit 10 c = true) := fun h => hd ((decimal_digits_iff _).mpr h)
    rw [if_neg (fun h => hd' (hw.mp h)), if_neg hd]

/-- `parse_u8` succeeds with a value of at most `max` exactly when, white space dropped,
the string is a decimal integer in `0 .. max`; the value stored is that integer. -/
theorem parse_u8_in_range (max : Nat) (hmax : max < 256) (s : List Char) (old : Nat) :
    (((parse_u8 s old).1 = HYDRASDR_SUCCESS ∧ (parse_u8 s old).2 ≤ max) ↔
      decimal_in_range max (s.dropWhile isspace)) ∧
    ((parse_u8 s old).1 = HYDRASDR_SUCCESS →
      decimal_integer (s.dropWhile isspace) = some ((parse_u8 s old).2 : Int)) ∧
    ((parse_u8 s old).1 ≠ HYDRASDR_SUCCESS → (parse_u8 s old).2 = old) := by
  have hne : HYDRASDR_ERROR_INVALID_PARAM ≠ HYDRASDR_SUCCESS := by decide
  rw [parse_u8_eq]
  unfold decimal_in_range
  rw [decimal_integer_eq]
  generalize decimal_digits_value
    ((s.dropWhile isspace).drop (sign_len (s.dropWhile isspace))) = m
  by_cases hd : decimal_digits
      ((s.dropWhile isspace).drop (sign_len (s.dropWhile isspace))) = true
  · simp only [hd, if_true]
    by_cases hneg : is_negative (s.dropWhile isspace) = true
    · simp only [hneg, if_true]
      by_cases hm : m = 0
      · subst hm
        simp
      · simp only [hm, if_false, hne, false_and, false_iff, not_exists, not_and,
          Option.some.injEq, ne_eq, not_false_eq_true, forall_true_left, and_true,
          false_implies, true_and]
        intro v hv h0
        omega
    · simp only [hneg, Bool.false_eq_true, if_false]
      by_cases hm : m < 256
      · simp only [hm, if_true, true_and, Option.some.injEq, ne_eq, not_true_eq_false,
          false_implies, and_true, forall_true_left]
        constructor
        · intro h
          exact ⟨m, rfl, by omega, by exact_mod_cast h⟩
        · rintro ⟨v, hv, _, h1⟩
          subst hv
          exact_mod_cast h1
      · simp only [hm, if_false, hne, false_and, false_iff, not_exists, not_and,
          Option.some.injEq, ne_eq, not_false_eq_true, forall_true_left, and_true,
          false_implies, true_and]
        intro v hv h0
        omega
  · simp [hd, hne]

/-! ### `parse_u64` -/

theorem select_base_hex (x : Char) (ds : List Char) (hx : x = 'x' ∨ x = 'X')
    (hne : ds ≠ []) : select_base ('0' :: x :: ds) = (16, ds) := by
  have hlen : ('0' :: x :: ds).length > 2 := by
    cases ds with
    | nil => exact absurd rfl hne
    | cons d ds => simp
  simp only [select_base, hlen, if_true, hx]

theorem select_base_bin (b : Char) (ds : List Char) (hb : b = 'b' ∨ b = 'B')
    (hne : ds ≠ []) : select_base ('0' :: b :: ds) = (2, ds) := by
  have hlen : ('0' :: b :: ds).length > 2 := by
    cases ds with
    | nil => exact absurd rfl hne
    | cons d ds => simp
  have hx : ¬ (b = 'x' ∨ b = 'X') := by
    rcases hb with h | h <;> subst h <;> decide
  simp only [select_base, hlen, if_true, hx, if_false, hb]

theorem select_base_dec (ds : List Char) (hall : ∀ c ∈ ds, is_digit 10 c = true) :
    select_base ds = (10, ds) := by
  unfold select_base
  split_ifs with hlen
  · split
    · rename_i c rest
      have hc : is_digit 10 c = true := hall c (by simp)
      have hcode := (is_digit_ten c).mp hc
      have h1 : ¬ (c = 'x' ∨ c = 'X') := by
        rintro (h | h) <;> subst h <;> revert hcode <;> decide
      have h2 : ¬ (c = 'b' ∨ c = 'B') := by
        rintro (h | h) <;> subst h <;> revert hcode <;> decide
      simp only [h1, h2, if_false]
    · rfl
  · rfl

theorem parse_u64_of_digits (s : List Char) (old base : Nat) (ds : List Char)
    (hsel : select_base s = (base, ds)) (hb : base ≤ 16) (hne : ds ≠ [])
    (hall : ∀ c ∈ ds, is_digit base c = true) (hfit : digits_value base ds < U64) :
    parse_u64 s old = (HYDRASDR_SUCCESS, digits_value base ds) := by
  have hlen : ds.length ≠ 0 := fun h => hne (List.length_eq_zero.mp h)
  unfold parse_u64 strtoull
  simp only [hsel, subject_digits base hb ds hne hall, ne_eq, hlen, not_false_eq_true,
    and_self, if_true, Nat.not_le.mpr hfit, if_false, Bool.false_eq_true]

/-- The accepting half of C5. For every string made of `0x`/`0X` and one or more
hexadecimal digits `parse_u64` succeeds with the base-16 value, for `0b`/`0B` and one or
more binary digits with the base-2 value, for a string of decimal digits with the decimal
value, whenever the value fits in 64 bits. -/
theorem parse_u64_accepts (old : Nat) (ds : List Char) (hne : ds ≠ []) :
    (∀ x : Char, (x = 'x' ∨ x = 'X') → (∀ c ∈ ds, is_digit 16 c = true) →
      digits_value 16 ds < U64 →
      parse_u64 ('0' :: x :: ds) old = (HYDRASDR_SUCCESS, digits_value 16 ds)) ∧
    (∀ b : Char, (b = 'b' ∨ b = 'B') → (∀ c ∈ ds, is_digit 2 c = true) →
      digits_value 2 ds < U64 →
      parse_u64 ('0' :: b :: ds) old = (HYDRASDR_SUCCESS, digits_value 2 ds)) ∧
    ((∀ c ∈ ds, is_digit 10 c = true) → digits_value 10 ds < U64 →
      parse_u64 ds old = (HYDRASDR_SUCCESS, digits_value 10 ds)) :=
  ⟨fun x hx hall hfit =>
    parse_u64_of_digits _ old 16 ds (select_base_hex x ds hx hne) (by decide) hne hall hfit,
   fun b hb hall hfit =>
    parse_u64_of_digits _ old 2 ds (select_base_bin b ds hb hne) (by decide) hne hall hfit,
   fun hall hfit =>
    parse_u64_of_digits _ old 10 ds (select_base_dec ds hall) (by decide) hne hall hfit⟩

/-- The rejecting half of C5, where it holds. When what `parse_u64` hands to `strtoull`
is one or more digits of the selected base followed by a character that is no digit of
it, and `strtoull` skips no `0x` of its own there, the string is rejected and the output
is not written. (`hex_prefix_len` is 0 for bases 10 and 2 always, and for base 16 unless
the digits are the single `0` followed by `x`/`X` and a hexadecimal digit.) -/
theorem parse_u64_rejects_trailing (s : List Char) (old : Nat) (ds : List Char) (c : Char)
    (rest : List Char) (hbody : (select_base s).2 = ds ++ c :: rest) (hne : ds ≠ [])
    (hall : ∀ d ∈ ds, is_digit (select_base s).1 d = true)
    (hc : is_digit (select_base s).1 c = false)
    (hx : hex_prefix_len (select_base s).1 (ds ++ c :: rest) = 0) :
    parse_u64 s old = (HYDRASDR_ERROR_INVALID_PARAM, old) := by
  have hstop := subject_stops (select_base s).1 ds c rest hne hall hc hx
  unfold parse_u64 strtoull
  simp only [hbody, hstop, List.length_append, List.length_cons]
  rw [if_neg]
  rintro ⟨_, h⟩
  omega

/-- C5: the code at a failing input. `"0x0x1A"` has the non-numeric character `x` after
the digit `0` that follows the `0x` prefix, yet `parse_u64` returns `HYDRASDR_SUCCESS` and
stores 26: after the tool has skipped the first `0x`, `strtoull` in base 16 skips the
second. The three witnesses of the claim hold: `"0x1A"` gives 26, `"0b101"` gives 5,
`"42abc"` is rejected and leaves the output (here 7) as it was. -/
theorem parse_u64_double_radix_mark :
    parse_u64 "0x0x1A".toList 7 = (HYDRASDR_SUCCESS, 26) ∧
    parse_u64 "0x1A".toList 7 = (HYDRASDR_SUCCESS, 26) ∧
    parse_u64 "0b101".toList 7 = (HYDRASDR_SUCCESS, 5) ∧
    parse_u64 "42abc".toList 7 = (HYDRASDR_ERROR_INVALID_PARAM, 7) := by
  decide

/-! ### Port and pin arguments -/

theorem step_option_p_result (dev : Device) (st : St) (arg : List Char) :
    (step_option dev st (Opt.p arg)).result = HYDRASDR_SUCCESS ↔
      ((parse_u8 arg st.port_number).1 = HYDRASDR_SUCCESS ∧
        (parse_u8 arg st.port_number).2 ≤ PORT_NUM_MAX) := by
  have hne : HYDRASDR_ERROR_OTHER ≠ HYDRASDR_SUCCESS := by decide
  unfold step_option
  by_cases h : (parse_u8 arg st.port_number).1 ≠ HYDRASDR_SUCCESS ∨
      (parse_u8 arg st.port_number).2 > PORT_NUM_MAX
  · simp only [h, if_true, hne, false_iff, not_and, not_le]
    intro h1
    rcases h with h | h
    · exact absurd h1 h
    · exact h
  · simp only [h, if_false]
    push_neg at h
    simp [h.1, h.2]

theorem step_option_n_result (dev : Device) (st : St) (arg : List Char) :
    (step_option dev st (Opt.n arg)).result = HYDRASDR_SUCCESS ↔
      ((parse_u8 arg st.pin_number).1 = HYDRASDR_SUCCESS ∧
        (parse_u8 arg st.pin_number).2 ≤ PIN_NUM_MAX) := by
  have hne : HYDRASDR_ERROR_OTHER ≠ HYDRASDR_SUCCESS := by decide
  unfold step_option
  by_cases h : (parse_u8 arg st.pin_number).1 ≠ HYDRASDR_SUCCESS ∨
      (parse_u8 arg st.pin_number).2 > PIN_NUM_MAX
  · simp only [h, if_true, hne, false_iff, not_and, not_le]
    intro h1
    rcases h with h | h
    · exact absurd h1 h
    · exact h
  · simp only [h, if_false]
    push_neg at h
    simp [h.1, h.2]

theorem step_option_p_fields (dev : Device) (st : St) (arg : List Char) :
    (step_option dev st (Opt.p arg)).port_number = (parse_u8 arg st.port_number).2 ∧
    (step_option dev st (Opt.p arg)).pin_number = st.pin_number ∧
    (step_option dev st (Opt.p arg)).trace = st.trace := by
  simp only [step_option]
  split_ifs <;> exact ⟨rfl, rfl, rfl⟩

theorem step_option_n_fields (dev : Device) (st : St) (arg : List Char) :
    (step_option dev st (Opt.n arg)).pin_number = (parse_u8 arg st.pin_number).2 ∧
    (step_option dev st (Opt.n arg)).port_number = st.port_number ∧
    (step_option dev st (Opt.n arg)).trace = st.trace := by
  simp only [step_option]
  split_ifs <;> exact ⟨rfl, rfl, rfl⟩

theorem process_options_stop (dev : Device) (st : St) (o : Opt) (rest : List Opt)
    (h : (step_option dev st o).result ≠ HYDRASDR_SUCCESS) :
    process_options dev st (o :: rest) = step_option dev st o := by
  simp [process_options, h]

theorem process_options_continue (dev : Device) (st : St) (o : Opt) (rest : List Opt)
    (h : (step_option dev st o).result = HYDRASDR_SUCCESS) :
    process_options dev st (o :: rest) = process_options dev (step_option dev st o) rest := by
  simp [process_options, h]

/-- C6, as stated, fails. The port argument `" 7"` (a blank, then 7) is accepted and sets
port 7, and so is `"\t31"` as a pin argument, though neither string is a decimal integer
with no other characters: `strtol` skips leading white space. -/
theorem port_argument_counterexample :
    ((step_option dev_ok (St.init 0 []) (Opt.p " 7".toList)).result = HYDRASDR_SUCCESS ∧
      (step_option dev_ok (St.init 0 []) (Opt.p " 7".toList)).port_number = 7 ∧
      ¬ decimal_in_range PORT_NUM_MAX " 7".toList) ∧
    ((step_option dev_ok (St.init 0 []) (Opt.n "\t31".toList)).result = HYDRASDR_SUCCESS ∧
      (step_option dev_ok (St.init 0 []) (Opt.n "\t31".toList)).pin_number = 31 ∧
      ¬ decimal_in_range PIN_NUM_MAX "\t31".toList) := by
  have h7 : decimal_integer " 7".toList = none := by decide
  have h31 : decimal_integer "\t31".toList = none := by decide
  refine ⟨⟨by decide, by decide, ?_⟩, ⟨by decide, by decide, ?_⟩⟩
  · rintro ⟨v, hv, _⟩
    rw [h7] at hv
    cases hv
  · rintro ⟨v, hv, _⟩
    rw [h31] at hv
    cases hv

/-- C6, amended. In the GPIO tool a `-p` argument is accepted exactly when, after optional
leading white space, it is a decimal integer (optional sign, digits) with no trailing
characters whose value is in 0..7, and a `-n` argument exactly when it is such an integer
in 0..31; an accepted argument sets the port (pin) number to that value and issues no
device call; every other argument is rejected, flag processing stops there, and no device
call at all is issued for the rejected flag or for any flag after it. -/
theorem port_pin_argument_accepted (dev : Device) (st : St) (arg : List Char)
    (rest : List Opt) :
    ((step_option dev st (Opt.p arg)).result = HYDRASDR_SUCCESS ↔
      decimal_in_range PORT_NUM_MAX (arg.dropWhile isspace)) ∧
    ((step_option dev st (Opt.n arg)).result = HYDRASDR_SUCCESS ↔
      decimal_in_range PIN_NUM_MAX (arg.dropWhile isspace)) ∧
    ((step_option dev st (Opt.p arg)).result = HYDRASDR_SUCCESS →
      decimal_integer (arg.dropWhile isspace)
        = some ((step_option dev st (Opt.p arg)).port_number : Int) ∧
      (step_option dev st (Opt.p arg)).trace = st.trace) ∧
    ((step_option dev st (Opt.n arg)).result = HYDRASDR_SUCCESS →
      decimal_integer (arg.dropWhile isspace)
        = some ((step_option dev st (Opt.n arg)).pin_number : Int) ∧
      (step_option dev st (Opt.n arg)).trace = st.trace) ∧
    ((step_option dev st (Opt.p arg)).result ≠ HYDRASDR_SUCCESS →
      (process_options dev st (Opt.p arg :: rest)).trace = st.trace ∧
      (process_options dev st (Opt.p arg :: rest)).result ≠ HYDRASDR_SUCCESS) ∧
    ((step_option dev st (Opt.n arg)).result ≠ HYDRASDR_SUCCESS →
      (process_options dev st (Opt.n arg :: rest)).trace = st.trace ∧
      (process_options dev st (Opt.n arg :: rest)).result ≠ HYDRASDR_SUCCESS) := by
  have hp := parse_u8_in_range PORT_NUM_MAX (by decide) arg st.port_number
  have hn := parse_u8_in_range PIN_NUM_MAX (by decide) arg st.pin_number
  have fp := step_option_p_fields dev st arg
  have fn := step_option_n_fields dev st arg
  refine ⟨?_, ?_, ?_, ?_, ?_, ?_⟩
  · rw [step_option_p_result]
    exact hp.1
  · rw [step_option_n_result]
    exact hn.1
  · intro h
    rw [fp.1]
    exact ⟨hp.2.1 ((step_option_p_result dev st arg).mp h).1, fp.2.2⟩
  · intro h
    rw [fn.1]
    exact ⟨hn.2.1 ((step_option_n_result dev st arg).mp h).1, fn.2.2⟩
  · intro h
    rw [process_options_stop dev st _ rest h]
    exact ⟨fp.2.2, h⟩
  · intro h
    rw [process_options_stop dev st _ rest h]
    exact ⟨fn.2.2, h⟩

/-- C6 amended, witness. Pin 300 is rejected, port 7 is accepted, port 8 is rejected; a
rejected port stops the run before the `-r` that follows it. -/
theorem port_pin_argument_witness :
    (step_option dev_ok (St.init 0 []) (Opt.n "300".toList)).result ≠ HYDRASDR_SUCCESS ∧
    (step_option dev_ok (St.init 0 []) (Opt.p "7".toList)).result = HYDRASDR_SUCCESS ∧
    (step_option dev_ok (St.init 0 []) (Opt.p "8".toList)).result ≠ HYDRASDR_SUCCESS ∧
    (process_options dev_ok (St.init 0 []) [Opt.p "8".toList, Opt.r]).trace = [] := by
  have h := port_pin_argument_accepted dev_ok (St.init 0 []) "8".toList [Opt.r]
  refine ⟨by decide, by decide, by decide, ?_⟩
  exact (h.2.2.2.2.1 (by decide)).1

/-! ### Read requests -/

theorem value_reads_append (a b : List Ev) :
    value_reads (a ++ b) = value_reads a ++ value_reads b := by
  induction a with
  | nil => rfl
  | cons e es ih =>
    cases e <;> simp [value_reads, ih]

theorem read_both_append (a b : List (Nat × Nat)) :
    read_both (a ++ b) = read_both a ++ read_both b := by
  induction a with
  | nil => rfl
  | cons x xs ih =>
    obtain ⟨port, pin⟩ := x
    simp [read_both, ih]

theorem dump_port_pin_value_reads (dev : Device) (tr : List Ev) (port pin : Nat) :
    value_reads (dump_port_pin dev tr port pin).2 = value_reads tr ++ [(port, pin)] := by
  unfold dump_port_pin
  by_cases h : (dev tr (Ev.gpio_read port pin)).1 = HYDRASDR_SUCCESS
  · simp [h, value_reads_append, value_reads]
  · simp [h, value_reads_append, value_reads]

theorem dump_port_pin_trace (dev : Device) (tr : List Ev) (port pin : Nat) :
    (dump_port_pin dev tr port pin).2
      = tr ++ (if (dev tr (Ev.gpio_read port pin)).1 = HYDRASDR_SUCCESS
               then [Ev.gpio_read port pin, Ev.gpiodir_read port pin]
               else [Ev.gpio_read port pin]) := by
  unfold dump_port_pin
  by_cases h : (dev tr (Ev.gpio_read port pin)).1 = HYDRASDR_SUCCESS
  · simp [h]
  · simp [h]

theorem dump_port_pin_ok (dev : Device) (hdev : ∀ tr e, (dev tr e).1 = HYDRASDR_SUCCESS)
    (tr : List Ev) (port pin : Nat) :
    dump_port_pin dev tr port pin = (HYDRASDR_SUCCESS, tr ++ read_both [(port, pin)]) := by
  unfold dump_port_pin
  simp [hdev, read_both]

theorem dump_port_loop_value_reads (dev : Device) (port : Nat) (pins : List Nat) :
    ∀ acc : Int × List Ev,
      value_reads (dump_port_loop dev port pins acc).2
        = value_reads acc.2 ++ pins.map fun pin => (port, pin) := by
  induction pins with
  | nil => intro acc; simp [dump_port_loop]
  | cons pin pins ih =>
    intro acc
    simp only [dump_port_loop]
    rw [ih, dump_port_pin_value_reads]
    simp

theorem dump_port_loop_ok (dev : Device) (hdev : ∀ tr e, (dev tr e).1 = HYDRASDR_SUCCESS)
    (port : Nat) (pins : List Nat) :
    ∀ tr : List Ev,
      dump_port_loop dev port pins (HYDRASDR_SUCCESS, tr)
        = (HYDRASDR_SUCCESS, tr ++ read_both (pins.map fun pin => (port, pin))) := by
  induction pins with
  | nil => intro tr; simp [dump_port_loop, read_both]
  | cons pin pins ih =>
    intro tr
    simp only [dump_port_loop]
    rw [dump_port_pin_ok dev hdev, ih]
    simp [read_both]

theorem dump_port_value_reads (dev : Device) (tr : List Ev) (port : Nat) :
    value_reads (dump_port dev tr port).2 = value_reads tr ++ port_addresses port :=
  dump_port_loop_value_reads dev port _ _

theorem dump_port_ok (dev : Device) (hdev : ∀ tr e, (dev tr e).1 = HYDRASDR_SUCCESS)
    (tr : List Ev) (port : Nat) :
    dump_port dev tr port = (HYDRASDR_SUCCESS, tr ++ read_both (port_addresses port)) :=
  dump_port_loop_ok dev hdev port _ tr

theorem dump_ports_loop_value_reads (dev : Device) (ports : List Nat) :
    ∀ acc : Int × List Ev, ∃ k, k ≤ ports.length ∧ (ports ≠ [] → 1 ≤ k) ∧
      value_reads (dump_ports_loop dev ports acc).2
        = value_reads acc.2 ++ (ports.take k).flatMap port_addresses ∧
      (k < ports.length → (dump_ports_loop dev ports acc).1 ≠ HYDRASDR_SUCCESS) := by
  induction ports with
  | nil =>
    intro acc
    exact ⟨0, le_refl _, fun h => absurd rfl h, by simp [dump_ports_loop], by simp⟩
  | cons port ports ih =>
    intro acc
    simp only [dump_ports_loop]
    by_cases h : (dump_port dev acc.2 port).1 ≠ HYDRASDR_SUCCESS
    · rw [if_pos h]
      refine ⟨1, by simp, fun _ => le_refl _, ?_, fun _ => h⟩
      simp [dump_port_value_reads]
    · rw [if_neg h]
      obtain ⟨k, hk, _, hv, hf⟩ := ih (dump_port dev acc.2 port)
      refine ⟨k + 1, by simpa using hk, fun _ => by omega, ?_, fun hlt => ?_⟩
      · rw [hv, dump_port_value_reads]
        simp
      · exact hf (by simpa using hlt)

theorem dump_ports_loop_ok (dev : Device) (hdev : ∀ tr e, (dev tr e).1 = HYDRASDR_SUCCESS)
    (ports : List Nat) :
    ∀ tr : List Ev,
      dump_ports_loop dev ports (HYDRASDR_SUCCESS, tr)
        = (HYDRASDR_SUCCESS, tr ++ read_both (ports.flatMap port_addresses)) := by
  induction ports with
  | nil => intro tr; simp [dump_ports_loop, read_both]
  | cons port ports ih =>
    intro tr
    simp only [dump_ports_loop]
    rw [dump_port_ok dev hdev]
    simp only [ne_eq, not_true_eq_false, if_false]
    rw [ih]
    simp [read_both_append]

theorem dump_ports_value_reads (dev : Device) (tr : List Ev) :
    ∃ k, 1 ≤ k ∧ k ≤ PORT_COUNT ∧
      value_reads (dump_ports dev tr).2 = value_reads tr ++ ports_addresses k ∧
      (k < PORT_COUNT → (dump_ports dev tr).1 ≠ HYDRASDR_SUCCESS) := by
  obtain ⟨k, hk, h1, hv, hf⟩ :=
    dump_ports_loop_value_reads dev (List.range PORT_COUNT) (HYDRASDR_SUCCESS, tr)
  have hlen : (List.range PORT_COUNT).length = PORT_COUNT := List.length_range _
  rw [hlen] at hk hf
  refine ⟨k, h1 (by decide), hk, ?_, hf⟩
  unfold dump_ports ports_addresses
  rw [hv, List.take_range, Nat.min_eq_left hk]

theorem dump_ports_ok (dev : Device) (hdev : ∀ tr e, (dev tr e).1 = HYDRASDR_SUCCESS)
    (tr : List Ev) :
    dump_ports dev tr = (HYDRASDR_SUCCESS, tr ++ read_both (ports_addresses PORT_COUNT)) :=
  dump_ports_loop_ok dev hdev _ tr

theorem step_option_r (dev : Device) (st : St) :
    (step_option dev st Opt.r).result
      = (if st.port_number = PORT_NUM_INVALID then dump_ports dev st.trace
         else if st.pin_number = PORT_NUM_INVALID then dump_port dev st.trace st.port_number
         else dump_port_pin dev st.trace st.port_number st.pin_number).1 ∧
    (step_option dev st Opt.r).trace
      = (if st.port_number = PORT_NUM_INVALID then dump_ports dev st.trace
         else if st.pin_number = PORT_NUM_INVALID then dump_port dev st.trace st.port_number
         else dump_port_pin dev st.trace st.port_number st.pin_number).2 := by
  simp only [step_option, and_self]

set_option maxRecDepth 20000 in
/-- C7, as stated, fails. With no port set and a device whose value read fails at port 0,
pin 31 only, `-r` issues the 32 value reads of port 0 and stops: not all 8 x 32 addresses
are read. With port 0 and pin 12 set and a device that fails every call, `-r` reads the
value at (0, 12) and does not read the direction. -/
theorem read_request_counterexample :
    (value_reads (process_options (dev_bad_read 0 31) (St.init 0 []) [Opt.r]).trace
        = port_addresses 0 ∧
      value_reads (process_options (dev_bad_read 0 31) (St.init 0 []) [Opt.r]).trace
        ≠ ports_addresses PORT_COUNT) ∧
    (process_options dev_dead (St.init 0 [])
        [Opt.p "0".toList, Opt.n "12".toList, Opt.r]).trace = [Ev.gpio_read 0 12] := by
  decide

/-- C7, amended. When every device call succeeds, a `-r` request reads (value then
direction) a set of addresses fixed by the current port/pin state: with no port set, all
8 x 32 (port, pin) pairs in port-major, pin-minor order; with a port set but no pin,
exactly the 32 pins 0..31 of that port in order; with both set, exactly the one
(port, pin) pair. The request then ends with the status `HYDRASDR_SUCCESS`. -/
theorem read_request_addresses (dev : Device) (st : St)
    (hdev : ∀ tr e, (dev tr e).1 = HYDRASDR_SUCCESS) :
    (step_option dev st Opt.r).result = HYDRASDR_SUCCESS ∧
    (st.port_number = PORT_NUM_INVALID →
      (step_option dev st Opt.r).trace
        = st.trace ++ read_both (ports_addresses PORT_COUNT)) ∧
    (st.port_number ≠ PORT_NUM_INVALID → st.pin_number = PIN_NUM_INVALID →
      (step_option dev st Opt.r).trace
        = st.trace ++ read_both (port_addresses st.port_number)) ∧
    (st.port_number ≠ PORT_NUM_INVALID → st.pin_number ≠ PIN_NUM_INVALID →
      (step_option dev st Opt.r).trace
        = st.trace ++ [Ev.gpio_read st.port_number st.pin_number,
                       Ev.gpiodir_read st.port_number st.pin_number]) := by
  have hr := step_option_r dev st
  have hinv : PORT_NUM_INVALID = PIN_NUM_INVALID := rfl
  refine ⟨?_, fun hp => ?_, fun hp hn => ?_, fun hp hn => ?_⟩
  · rw [hr.1]
    by_cases hp : st.port_number = PORT_NUM_INVALID
    · rw [if_pos hp, dump_ports_ok dev hdev]
    · by_cases hn : st.pin_number = PORT_NUM_INVALID
      · rw [if_neg hp, if_pos hn, dump_port_ok dev hdev]
      · rw [if_neg hp, if_neg hn, dump_port_pin_ok dev hdev]
  · rw [hr.2, if_pos hp, dump_ports_ok dev hdev]
  · rw [hr.2, if_neg hp, if_pos (hinv ▸ hn), dump_port_ok dev hdev]
  · rw [hr.2, if_neg hp, if_neg (hinv ▸ hn), dump_port_pin_ok dev hdev]
    rfl

set_option maxRecDepth 20000 in
/-- C7 amended, witness. On a device whose calls succeed, `-p 0 -n 12 -r` issues exactly
one value read, at (0, 12), followed by its direction read; `-r` alone issues 256 value
reads, in port-major, pin-minor order. -/
theorem read_request_witness :
    (process_options dev_ok (St.init 0 [])
        [Opt.p "0".toList, Opt.n "12".toList, Opt.r]).trace
      = [Ev.gpio_read 0 12, Ev.gpiodir_read 0 12] ∧
    (step_option dev_ok (St.init 0 []) Opt.r).trace
      = read_both (ports_addresses 8) ∧
    (value_reads (step_option dev_ok (St.init 0 []) Opt.r).trace).length = 256 ∧
    (ports_addresses 8).take 34 = port_addresses 0 ++ [(1, 0), (1, 1)] := by
  have h := (read_request_addresses dev_ok (St.init 0 []) (fun _ _ => rfl)).2.1 rfl
  have ht : (step_option dev_ok (St.init 0 []) Opt.r).trace
      = read_both (ports_addresses 8) := h
  refine ⟨by decide, ht, ?_, by decide⟩
  rw [ht]
  decide

/-! ### Write requests -/

theorem step_option_w_ok (dev : Device) (st : St) (arg : List Char)
    (h : (parse_u8 arg st.value).1 = HYDRASDR_SUCCESS) :
    (step_option dev st (Opt.w arg)).trace
      = st.trace ++ [Ev.gpio_write st.port_number st.pin_number (parse_u8 arg st.value).2] ∧
    (step_option dev st (Opt.w arg)).result
      = (dev st.trace
          (Ev.gpio_write st.port_number st.pin_number (parse_u8 arg st.value).2)).1 := by
  simp only [step_option, h, if_true, write_port_pin, and_self]

theorem step_option_w_rejected (dev : Device) (st : St) (arg : List Char)
    (h : (parse_u8 arg st.value).1 ≠ HYDRASDR_SUCCESS) :
    (step_option dev st (Opt.w arg)).trace = st.trace ∧
    (step_option dev st (Opt.w arg)).result ≠ HYDRASDR_SUCCESS := by
  simp only [step_option, h, if_false]
  exact ⟨trivial, h⟩

theorem step_option_port_unchanged (dev : Device) (st : St) (o : Opt)
    (h : ∀ a, o ≠ Opt.p a) : (step_option dev st o).port_number = st.port_number := by
  cases o with
  | p a => exact absurd rfl (h a)
  | n a => simp only [step_option]; split_ifs <;> rfl
  | r => simp only [step_option]
  | w a => simp only [step_option]; split_ifs <;> rfl
  | s a => rfl
  | unknown => rfl

theorem step_option_pin_unchanged (dev : Device) (st : St) (o : Opt)
    (h : ∀ a, o ≠ Opt.n a) : (step_option dev st o).pin_number = st.pin_number := by
  cases o with
  | p a => simp only [step_option]; split_ifs <;> rfl
  | n a => exact absurd rfl (h a)
  | r => simp only [step_option]
  | w a => simp only [step_option]; split_ifs <;> rfl
  | s a => rfl
  | unknown => rfl

theorem process_options_port_unchanged (dev : Device) (opts : List Opt) :
    ∀ st : St, (∀ o ∈ opts, ∀ a, o ≠ Opt.p a) →
      (process_options dev st opts).port_number = st.port_number := by
  induction opts with
  | nil => intro st _; rfl
  | cons o os ih =>
    intro st h
    have ho := step_option_port_unchanged dev st o (h o (List.mem_cons_self _ _))
    by_cases hr : (step_option dev st o).result = HYDRASDR_SUCCESS
    · rw [process_options_continue dev st o os hr,
        ih _ (fun x hx => h x (List.mem_cons_of_mem _ hx)), ho]
    · rw [process_options_stop dev st o os hr, ho]

theorem process_options_pin_unchanged (dev : Device) (opts : List Opt) :
    ∀ st : St, (∀ o ∈ opts, ∀ a, o ≠ Opt.n a) →
      (process_options dev st opts).pin_number = st.pin_number := by
  induction opts with
  | nil => intro st _; rfl
  | cons o os ih =>
    intro st h
    have ho := step_option_pin_unchanged dev st o (h o (List.mem_cons_self _ _))
    by_cases hr : (step_option dev st o).result = HYDRASDR_SUCCESS
    · rw [process_options_continue dev st o os hr,
        ih _ (fun x hx => h x (List.mem_cons_of_mem _ hx)), ho]
    · rw [process_options_stop dev st o os hr, ho]

/-- Options processed without leaving the loop can be followed by further options. -/
theorem process_options_append (dev : Device) (pre : List Opt) (rest : List Opt) :
    ∀ st : St, (pre = [] ∨ (process_options dev st pre).result = HYDRASDR_SUCCESS) →
      process_options dev st (pre ++ rest)
        = process_options dev (process_options dev st pre) rest := by
  induction pre with
  | nil => intro st _; rfl
  | cons o os ih =>
    intro st h
    have h' : (process_options dev st (o :: os)).result = HYDRASDR_SUCCESS := by
      rcases h with h | h
      · exact absurd h (List.cons_ne_nil _ _)
      · exact h
    by_cases hr : (step_option dev st o).result = HYDRASDR_SUCCESS
    · rw [process_options_continue dev st o os hr] at h' ⊢
      rw [List.cons_append, process_options_continue dev st o _ hr]
      exact ih _ (Or.inr h')
    · rw [process_options_stop dev st o os hr] at h'
      exact absurd h' hr

/-- C8: the code at a failing input. `-w 1` given before any `-p` or `-n` issues a device
GPIO write call, at port 255 and pin 255, the "not set" values `PORT_NUM_INVALID` and
`PIN_NUM_INVALID`; `-n 3 -w 1` issues one at port 255, and `-p 0 -w 1` one at pin 255.
The 'w' case of `main` never tests the port and pin numbers. -/
theorem write_without_port_and_pin :
    (process_options dev_ok (St.init 0 []) [Opt.w "1".toList]).trace
      = [Ev.gpio_write 255 255 1] ∧
    (process_options dev_ok (St.init 0 []) [Opt.n "3".toList, Opt.w "1".toList]).trace
      = [Ev.gpio_write 255 3 1] ∧
    (process_options dev_ok (St.init 0 []) [Opt.p "0".toList, Opt.w "1".toList]).trace
      = [Ev.gpio_write 0 255 1] := by
  decide

/-- The extent of the defect of C8. In every flag sequence in which a `-w <v>` is reached
and `<v>` is accepted by `parse_u8`, the write call is issued at the current port and pin
numbers, and these still hold 255 when no `-p` (no `-n`) precedes the `-w`. -/
theorem write_request_unguarded (dev : Device) (value0 : Nat) (tr0 : List Ev)
    (pre : List Opt) (arg : List Char) (post : List Opt)
    (hrun : pre = [] ∨
      (process_options dev (St.init value0 tr0) pre).result = HYDRASDR_SUCCESS)
    (harg : (parse_u8 arg (process_options dev (St.init value0 tr0) pre).value).1
      = HYDRASDR_SUCCESS) :
    ((∀ o ∈ pre, ∀ a, o ≠ Opt.p a) →
      (process_options dev (St.init value0 tr0) pre).port_number = PORT_NUM_INVALID) ∧
    ((∀ o ∈ pre, ∀ a, o ≠ Opt.n a) →
      (process_options dev (St.init value0 tr0) pre).pin_number = PIN_NUM_INVALID) ∧
    process_options dev (St.init value0 tr0) (pre ++ Opt.w arg :: post)
      = process_options dev (process_options dev (St.init value0 tr0) pre)
          (Opt.w arg :: post) ∧
    (step_option dev (process_options dev (St.init value0 tr0) pre) (Opt.w arg)).trace
      = (process_options dev (St.init value0 tr0) pre).trace
        ++ [Ev.gpio_write (process_options dev (St.init value0 tr0) pre).port_number
              (process_options dev (St.init value0 tr0) pre).pin_number
              (parse_u8 arg (process_options dev (St.init value0 tr0) pre).value).2] :=
  ⟨fun h => process_options_port_unchanged dev pre (St.init value0 tr0) h,
   fun h => process_options_pin_unchanged dev pre (St.init value0 tr0) h,
   process_options_append dev pre _ (St.init value0 tr0) hrun,
   (step_option_w_ok dev _ arg harg).1⟩

/-! ### Device failures -/

set_option maxRecDepth 20000 in
/-- C9: the code at a failing input. `-p 0 -r -n 3 -w 1` on a device whose value read at
port 0, pin 0 fails and whose other calls succeed: after that failure the tool goes on to
read the values of pins 1..31 of port 0, `dump_port` returns the status of pin 31, the
loop is not left, and the later `-w 1` issues a GPIO write at (0, 3); no usage text is
printed and the exit status is 0. -/
theorem failed_read_does_not_abort :
    (dev_bad_read 0 0 [Ev.open_first] (Ev.gpio_read 0 0)).1 ≠ HYDRASDR_SUCCESS ∧
    value_reads (main (dev_bad_read 0 0) 0
        [Opt.p "0".toList, Opt.r, Opt.n "3".toList, Opt.w "1".toList]).2
      = port_addresses 0 ∧
    Ev.gpio_write 0 3 1 ∈ (main (dev_bad_read 0 0) 0
        [Opt.p "0".toList, Opt.r, Opt.n "3".toList, Opt.w "1".toList]).2 ∧
    Ev.usage ∉ (main (dev_bad_read 0 0) 0
        [Opt.p "0".toList, Opt.r, Opt.n "3".toList, Opt.w "1".toList]).2 ∧
    (main (dev_bad_read 0 0) 0
        [Opt.p "0".toList, Opt.r, Opt.n "3".toList, Opt.w "1".toList]).1 = 0 := by
  decide

/-! ### Argument errors and the exit status -/

theorem parse_u8_value_lt (s : List Char) (old : Nat)
    (h : (parse_u8 s old).1 = HYDRASDR_SUCCESS) : (parse_u8 s old).2 < 256 := by
  have hne : HYDRASDR_ERROR_INVALID_PARAM ≠ HYDRASDR_SUCCESS := by decide
  unfold parse_u8 at h ⊢
  simp only [] at h ⊢
  split_ifs at h ⊢ with h1 h2
  · exact Nat.mod_lt _ (by decide)
  · exact absurd h hne
  · exact absurd h hne

/-- A malformed or out-of-range `-p`, `-n` or `-w` value leaves `result` different from
`HYDRASDR_SUCCESS`, whatever the state and the device. -/
theorem malformed_flag_rejected (dev : Device) (st : St) (o : Opt) (h : malformed_flag o) :
    (step_option dev st o).result ≠ HYDRASDR_SUCCESS := by
  cases o with
  | p a =>
    intro hs
    exact h ((parse_u8_in_range PORT_NUM_MAX (by decide) a st.port_number).1.mp
      ((step_option_p_result dev st a).mp hs))
  | n a =>
    intro hs
    exact h ((parse_u8_in_range PIN_NUM_MAX (by decide) a st.pin_number).1.mp
      ((step_option_n_result dev st a).mp hs))
  | w a =>
    intro hs
    by_cases hp : (parse_u8 a st.value).1 = HYDRASDR_SUCCESS
    · exact h ((parse_u8_in_range 255 (by decide) a st.value).1.mp
        ⟨hp, Nat.le_of_lt_succ (parse_u8_value_lt a st.value hp)⟩)
    · exact (step_option_w_rejected dev st a hp).2 hs
  | r => exact absurd h (by simp [malformed_flag])
  | s a => exact absurd h (by simp [malformed_flag])
  | unknown => exact absurd h (by simp [malformed_flag])

theorem process_options_malformed (dev : Device) (opts : List Opt) :
    ∀ st : St, (∃ o ∈ opts, malformed_flag o) →
      (process_options dev st opts).result ≠ HYDRASDR_SUCCESS := by
  induction opts with
  | nil =>
    rintro st ⟨o, ho, _⟩
    exact absurd ho (List.not_mem_nil o)
  | cons o' os ih =>
    rintro st ⟨o, ho, hm⟩
    by_cases hr : (step_option dev st o').result = HYDRASDR_SUCCESS
    · rw [process_options_continue dev st o' os hr]
      rcases List.mem_cons.mp ho with rfl | hin
      · exact absurd hr (malformed_flag_rejected dev st o hm)
      · exact ih _ ⟨o, hin, hm⟩
    · rw [process_options_stop dev st o' os hr]
      exact hr

/-- The half of C11 that holds. In every invocation in which the value of a `-p`, `-n` or
`-w` flag is malformed or out of range, `main` prints the usage text. -/
theorem main_usage_on_malformed_flag (dev : Device) (value0 : Nat) (opts : List Opt)
    (h : ∃ o ∈ opts, malformed_flag o) : Ev.usage ∈ (main dev value0 opts).2 := by
  unfold main
  simp only []
  generalize (if (serial_pass (false, 0) opts).1 = true
    then Ev.open_sn (serial_pass (false, 0) opts).2 else Ev.open_first) = op
  by_cases hopen : (dev [] op).1 ≠ HYDRASDR_SUCCESS
  · rw [if_pos hopen]
    simp
  · rw [if_neg hopen, if_pos (process_options_malformed dev opts (St.init value0 [op]) h)]
    split_ifs <;> simp

/-- The exit status of `main` looks at the device only: when the open and the close
succeed it is 0, whatever the flags and whatever `result` held after them. -/
theorem main_exit_zero (dev : Device) (value0 : Nat) (opts : List Opt)
    (hopen : (dev [] (if (serial_pass (false, 0) opts).1
        then Ev.open_sn (serial_pass (false, 0) opts).2 else Ev.open_first)).1
      = HYDRASDR_SUCCESS)
    (hclose : ∀ tr, (dev tr Ev.close).1 = 0) :
    (main dev value0 opts).1 = 0 := by
  unfold main
  simp only [hopen, hclose, ne_eq, not_true_eq_false, if_false]

set_option maxRecDepth 20000 in
/-- C11: the code at three failing inputs, on a device whose calls all succeed. `-p 8` (a
port out of range) prints the usage text and `main` returns 0; `-p 0 -n 12 -w 1x` (a
malformed value) prints the usage text and `main` returns 0: the status of
`hydrasdr_close` overwrites `result` before the exit status is chosen. `-p 0 -n 12 -r -s
12abc` (a malformed serial number) opens the board with serial number 0, performs the
read, prints no usage text and returns 0: the status of `parse_u64` is never looked at. -/
theorem main_argument_errors_exit_zero :
    main dev_ok 0 [Opt.p "8".toList] = (0, [Ev.open_first, Ev.usage, Ev.close]) ∧
    main dev_ok 0 [Opt.p "0".toList, Opt.n "12".toList, Opt.w "1x".toList]
      = (0, [Ev.open_first, Ev.usage, Ev.close]) ∧
    main dev_ok 0 [Opt.p "0".toList, Opt.n "12".toList, Opt.r, Opt.s "12abc".toList]
      = (0, [Ev.open_sn 0, Ev.gpio_read 0 12, Ev.gpiodir_read 0 12, Ev.close]) ∧
    parse_u64 "12abc".toList 0 = (HYDRASDR_ERROR_INVALID_PARAM, 0) := by
  decide

end GpioTool

/-! ## Theorems: info tool -/

namespace InfoTool

theorem report_loop_none (dev : Device) (slots : List Nat) :
    ∀ tr : List Ev, report_loop dev 0 slots tr = tr := by
  induction slots with
  | nil => intro tr; rfl
  | cons i slots ih =>
    intro tr
    simp only [report_loop, Nat.not_lt_zero, if_false]
    exact ih tr

/-- The half of C12 that holds, and what the code does instead of the other half. When the
options are accepted and the very first open fails, `main` prints the error and nothing
else (no "Found HydraSDR board" line, no field, no further open) and returns
`EXIT_SUCCESS`. -/
theorem main_first_open_fails (dev : Device) (opts : List Opt) (sn : Bool × Nat)
    (hargs : parse_options (false, 0) opts = Except.ok sn)
    (h : dev [Ev.lib_version] (open_call sn 0) ≠ HYDRASDR_SUCCESS) :
    main dev opts
      = (EXIT_SUCCESS, [Ev.lib_version, open_call sn 0, Ev.print_open_error]) := by
  have hloop : open_loop dev sn HYDRASDR_MAX_DEVICE 0 [Ev.lib_version]
      = (0, [Ev.lib_version, open_call sn 0, Ev.print_open_error]) := by
    show open_loop dev sn (31 + 1) 0 [Ev.lib_version] = _
    rw [open_loop]
    simp only [h, ne_eq, not_false_eq_true, if_true, List.cons_append, List.nil_append]
  unfold main
  simp only [hargs, hloop, report_loop_none]

/-- C12: the code at a failing input. `-s 0x1234` with no matching board (every open
fails): the first open fails, the failure is printed, no board report is printed, and
`main` returns `EXIT_SUCCESS`, not a failure code. The same happens with no option and no
board attached. -/
theorem first_open_failure_exit_status :
    main dev_none [Opt.s "0x1234".toList]
      = (EXIT_SUCCESS, [Ev.lib_version, Ev.open_sn 0 4660, Ev.print_open_error]) ∧
    main dev_none []
      = (EXIT_SUCCESS, [Ev.lib_version, Ev.open_first 0, Ev.print_open_error]) ∧
    (main dev_none [Opt.s "0x1234".toList]).2.filter is_report = [] := by
  decide

/-- When a field read of board `i` fails, the body of the report loop is left before
`hydrasdr_close`: no close is recorded for that pass. -/
theorem report_board_read_fails (dev : Device) (tr : List Ev) (i : Nat) :
    (dev (tr ++ [Ev.print_found_board i]) (Ev.board_id_read i) ≠ HYDRASDR_SUCCESS →
      report_board dev tr i = tr ++ [Ev.print_found_board i, Ev.board_id_read i]) ∧
    (dev (tr ++ [Ev.print_found_board i]) (Ev.board_id_read i) = HYDRASDR_SUCCESS →
      dev (tr ++ [Ev.print_found_board i, Ev.board_id_read i, Ev.print_board_id i])
        (Ev.version_string_read i) ≠ HYDRASDR_SUCCESS →
      report_board dev tr i
        = tr ++ [Ev.print_found_board i, Ev.board_id_read i, Ev.print_board_id i,
                 Ev.version_string_read i]) ∧
    (dev (tr ++ [Ev.print_found_board i]) (Ev.board_id_read i) = HYDRASDR_SUCCESS →
      dev (tr ++ [Ev.print_found_board i, Ev.board_id_read i, Ev.print_board_id i])
        (Ev.version_string_read i) = HYDRASDR_SUCCESS →
      dev (tr ++ [Ev.print_found_board i, Ev.board_id_read i, Ev.print_board_id i,
                  Ev.version_string_read i, Ev.print_firmware_version i])
        (Ev.board_partid_serialno_read i) ≠ HYDRASDR_SUCCESS →
      report_board dev tr i
        = tr ++ [Ev.print_found_board i, Ev.board_id_read i, Ev.print_board_id i,
                 Ev.version_string_read i, Ev.print_firmware_version i,
                 Ev.board_partid_serialno_read i]) ∧
    (dev (tr ++ [Ev.print_found_board i]) (Ev.board_id_read i) = HYDRASDR_SUCCESS →
      dev (tr ++ [Ev.print_found_board i, Ev.board_id_read i, Ev.print_board_id i])
        (Ev.version_string_read i) = HYDRASDR_SUCCESS →
      dev (tr ++ [Ev.print_found_board i, Ev.board_id_read i, Ev.print_board_id i,
                  Ev.version_string_read i, Ev.print_firmware_version i])
        (Ev.board_partid_serialno_read i) = HYDRASDR_SUCCESS →
      report_board dev tr i
        = tr ++ [Ev.print_found_board i, Ev.board_id_read i, Ev.print_board_id i,
                 Ev.version_string_read i, Ev.print_firmware_version i,
                 Ev.board_partid_serialno_read i, Ev.print_part_id_serial i,
                 Ev.get_samplerates_count i, Ev.get_samplerates_list i,
                 Ev.print_samplerates i, Ev.print_close_board i, Ev.close i]) := by
  refine ⟨fun h1 => ?_, fun h1 h2 => ?_, fun h1 h2 h3 => ?_, fun h1 h2 h3 => ?_⟩ <;>
    simp_all [report_board]

/-- C13: the code at three failing inputs. One board is attached and opened in slot 0
(the open succeeds). When its board-ID read fails, or its firmware-version read, or its
part-ID/serial read, `main` ends without any `hydrasdr_close` of slot 0: each failed read
leaves the loop body through `continue`, before the close. When all three reads succeed
the slot is closed exactly once. -/
theorem failed_read_leaves_device_open :
    dev_one_bad (Ev.board_id_read 0) [Ev.lib_version] (Ev.open_first 0) = HYDRASDR_SUCCESS ∧
    (main (dev_one_bad (Ev.board_id_read 0)) []).2.count (Ev.close 0) = 0 ∧
    (main (dev_one_bad (Ev.version_string_read 0)) []).2.count (Ev.close 0) = 0 ∧
    (main (dev_one_bad (Ev.board_partid_serialno_read 0)) []).2.count (Ev.close 0) = 0 ∧
    (main (dev_one_bad (Ev.board_id_read 0)) [])
      = (EXIT_SUCCESS,
         [Ev.lib_version, Ev.open_first 0, Ev.open_first 1, Ev.print_found_board 0,
          Ev.board_id_read 0]) ∧
    (main dev_one []).2.count (Ev.close 0) = 1 := by
  decide

end InfoTool

/-! ## Theorems: capture tool setup and cleanup -/

namespace AsyncRx

theorem monitor_shape (env : Env) (polls : Nat) :
    ∀ tr : List Call, ∃ m, monitor env polls tr = tr ++ List.replicate m Call.is_streaming := by
  induction polls with
  | zero => intro tr; exact ⟨0, by simp [monitor]⟩
  | succ n ih =>
    intro tr
    simp only [monitor]
    split_ifs with h
    · exact ⟨1, rfl⟩
    · obtain ⟨m, hm⟩ := ih (tr ++ [Call.is_streaming])
      refine ⟨m + 1, ?_⟩
      rw [hm, List.replicate_succ]
      simp

/-- What `setup_ok` says for each of the seven setup calls. -/
theorem setup_ok_cases (env : Env) (cfg : Config) (tr : List Call) :
    (setup_ok env cfg tr 0 ↔ env tr (Call.set_freq cfg.freq_hz) = HYDRASDR_SUCCESS) ∧
    (setup_ok env cfg tr 1 ↔
      env (tr ++ [Call.set_freq cfg.freq_hz]) (Call.set_samplerate cfg.samplerate)
        = HYDRASDR_SUCCESS) ∧
    (setup_ok env cfg tr 2 ↔
      env (tr ++ [Call.set_freq cfg.freq_hz, Call.set_samplerate cfg.samplerate])
        (Call.set_sample_type cfg.sample_type) = HYDRASDR_SUCCESS) ∧
    (setup_ok env cfg tr 3 ↔
      env (tr ++ [Call.set_freq cfg.freq_hz, Call.set_samplerate cfg.samplerate,
                  Call.set_sample_type cfg.sample_type])
        (Call.set_linearity_gain cfg.gain) = HYDRASDR_SUCCESS) ∧
    (setup_ok env cfg tr 4 ↔
      env (tr ++ [Call.set_freq cfg.freq_hz, Call.set_samplerate cfg.samplerate,
                  Call.set_sample_type cfg.sample_type, Call.set_linearity_gain cfg.gain])
        (Call.set_rf_bias cfg.bias) = HYDRASDR_SUCCESS) ∧
    (setup_ok env cfg tr 5 ↔
      env (tr ++ [Call.set_freq cfg.freq_hz, Call.set_samplerate cfg.samplerate,
                  Call.set_sample_type cfg.sample_type, Call.set_linearity_gain cfg.gain,
                  Call.set_rf_bias cfg.bias])
        (Call.fopen cfg.filename) ≠ 0) ∧
    (setup_ok env cfg tr 6 ↔
      env (tr ++ [Call.set_freq cfg.freq_hz, Call.set_samplerate cfg.samplerate,
                  Call.set_sample_type cfg.sample_type, Call.set_linearity_gain cfg.gain,
                  Call.set_rf_bias cfg.bias, Call.fopen cfg.filename])
        Call.start_rx = HYDRASDR_SUCCESS) := by
  simp [setup_ok, setup_calls, answer_ok]

/-- The shape of every run of the setup sequence: the first `k` setup calls in program
order, then (only after all seven) the polls of the monitoring loop. Every call but the
last one made was answered with success, a call to set the sample type or later is made
only for a valid sample type, the sequence stops early only at a failed call or at an
invalid sample type, and the output file is open afterwards exactly when `fopen` was
reached and gave a stream. -/
theorem configure_and_stream_shape (env : Env) (polls : Nat) (cfg : Config)
    (tr : List Call) :
    ∃ k m, 1 ≤ k ∧ k ≤ 7 ∧
      (configure_and_stream env polls cfg tr).2.1
        = tr ++ (setup_calls cfg).take k ++ List.replicate m Call.is_streaming ∧
      (k < 7 → m = 0) ∧
      (∀ j, j + 1 < k → setup_ok env cfg tr j) ∧
      (3 ≤ k → sample_type_valid cfg) ∧
      (k < 7 → ¬ setup_ok env cfg tr (k - 1) ∨ (k = 2 ∧ ¬ sample_type_valid cfg)) ∧
      ((configure_and_stream env polls cfg tr).2.2 = true ↔
        6 ≤ k ∧ setup_ok env cfg tr 5) := by
  obtain ⟨c0, c1, c2, c3, c4, c5, c6⟩ := setup_ok_cases env cfg tr
  have hs0 : HYDRASDR_SUCCESS = 0 := rfl
  unfold configure_and_stream
  simp only []
  by_cases h0 : env tr (Call.set_freq cfg.freq_hz) = HYDRASDR_SUCCESS
  swap
  · refine ⟨1, 0, le_refl _, by decide, ?_, fun _ => rfl, ?_, ?_, ?_, ?_⟩
    · simp [h0, setup_calls]
    · intro j hj; omega
    · intro h; omega
    · intro _; exact Or.inl (fun h => h0 (c0.mp h))
    · simp [h0]
  by_cases h1 : env (tr ++ [Call.set_freq cfg.freq_hz]) (Call.set_samplerate cfg.samplerate)
      = HYDRASDR_SUCCESS
  swap
  · refine ⟨2, 0, by decide, by decide, ?_, fun _ => rfl, ?_, ?_, ?_, ?_⟩
    · simp [h0, h1, setup_calls]
    · intro j hj
      have : j = 0 := by omega
      subst this
      exact c0.mpr h0
    · intro h; omega
    · intro _; exact Or.inl (fun h => h1 (c1.mp h))
    · simp [h0, h1]
  by_cases ht : cfg.sample_type < 0 ∨ cfg.sample_type ≥ HYDRASDR_SAMPLE_END
  · have hv : ¬ sample_type_valid cfg := by
      unfold sample_type_valid
      omega
    refine ⟨2, 0, by decide, by decide, ?_, fun _ => rfl, ?_, ?_, ?_, ?_⟩
    · simp [h0, h1, ht, setup_calls]
    · intro j hj
      have : j = 0 := by omega
      subst this
      exact c0.mpr h0
    · intro h; omega
    · intro _; exact Or.inr ⟨rfl, hv⟩
    · simp [h0, h1, ht]
  have hv : sample_type_valid cfg := by
    unfold sample_type_valid
    omega
  by_cases h2 : env (tr ++ [Call.set_freq cfg.freq_hz, Call.set_samplerate cfg.samplerate])
      (Call.set_sample_type cfg.sample_type) = HYDRASDR_SUCCESS
  swap
  · refine ⟨3, 0, by decide, by decide, ?_, fun _ => rfl, ?_, fun _ => hv, ?_, ?_⟩
    · simp [h0, h1, ht, h2, setup_calls]
    · intro j hj
      have hj' : j < 2 := by omega
      interval_cases j
      · exact c0.mpr h0
      · exact c1.mpr h1
    · intro _; exact Or.inl (fun h => h2 (c2.mp h))
    · simp [h0, h1, ht, h2]
  by_cases h3 : env (tr ++ [Call.set_freq cfg.freq_hz, Call.set_samplerate cfg.samplerate,
      Call.set_sample_type cfg.sample_type]) (Call.set_linearity_gain cfg.gain)
      = HYDRASDR_SUCCESS
  swap
  · refine ⟨4, 0, by decide, by decide, ?_, fun _ => rfl, ?_, fun _ => hv, ?_, ?_⟩
    · simp [h0, h1, ht, h2, h3, setup_calls]
    · intro j hj
      have hj' : j < 3 := by omega
      interval_cases j
      · exact c0.mpr h0
      · exact c1.mpr h1
      · exact c2.mpr h2
    · intro _; exact Or.inl (fun h => h3 (c3.mp h))
    · simp [h0, h1, ht, h2, h3]
  by_cases h4 : env (tr ++ [Call.set_freq cfg.freq_hz, Call.set_samplerate cfg.samplerate,
      Call.set_sample_type cfg.sample_type, Call.set_linearity_gain cfg.gain])
      (Call.set_rf_bias cfg.bias) = HYDRASDR_SUCCESS
  swap
  · refine ⟨5, 0, by decide, by decide, ?_, fun _ => rfl, ?_, fun _ => hv, ?_, ?_⟩
    · simp [h0, h1, ht, h2, h3, h4, setup_calls]
    · intro j hj
      have hj' : j < 4 := by omega
      interval_cases j
      · exact c0.mpr h0
      · exact c1.mpr h1
      · exact c2.mpr h2
      · exact c3.mpr h3
    · intro _; exact Or.inl (fun h => h4 (c4.mp h))
    · simp [h0, h1, ht, h2, h3, h4]
  by_cases h5 : env (tr ++ [Call.set_freq cfg.freq_hz, Call.set_samplerate cfg.samplerate,
      Call.set_sample_type cfg.sample_type, Call.set_linearity_gain cfg.gain,
      Call.set_rf_bias cfg.bias]) (Call.fopen cfg.filename) = 0
  · refine ⟨6, 0, by decide, by decide, ?_, fun _ => rfl, ?_, fun _ => hv, ?_, ?_⟩
    · simp [h0, h1, ht, h2, h3, h4, h5, setup_calls]
    · intro j hj
      have hj' : j < 5 := by omega
      interval_cases j
      · exact c0.mpr h0
      · exact c1.mpr h1
      · exact c2.mpr h2
      · exact c3.mpr h3
      · exact c4.mpr h4
    · intro _; exact Or.inl (fun h => (c5.mp h) h5)
    · simp only [h0, h1, ht, h2, h3, h4, h5, c5, ne_eq, not_true_eq_false, if_false,
        if_true, List.append_assoc, List.singleton_append, List.cons_append,
        List.nil_append, and_false, Bool.false_eq_true]
  by_cases h6 : env (tr ++ [Call.set_freq cfg.freq_hz, Call.set_samplerate cfg.samplerate,
      Call.set_sample_type cfg.sample_type, Call.set_linearity_gain cfg.gain,
      Call.set_rf_bias cfg.bias, Call.fopen cfg.filename]) Call.start_rx = 0
  swap
  · refine ⟨7, 0, by decide, by decide, ?_, fun _ => rfl, ?_, fun _ => hv, ?_, ?_⟩
    · simp [h0, h1, ht, h2, h3, h4, h5, h6, setup_calls]
    · intro j hj
      have hj' : j < 6 := by omega
      interval_cases j
      · exact c0.mpr h0
      · exact c1.mpr h1
      · exact c2.mpr h2
      · exact c3.mpr h3
      · exact c4.mpr h4
      · exact c5.mpr h5
    · intro h; omega
    · simp only [h0, h1, ht, h2, h3, h4, h5, h6, c5, ne_eq, not_true_eq_false, if_false,
        not_false_eq_true, if_true, List.append_assoc, List.singleton_append,
        List.cons_append, List.nil_append, le_refl, Nat.le_succ, and_self, true_and]
  · obtain ⟨m, hm⟩ := monitor_shape env polls (tr ++ [Call.set_freq cfg.freq_hz,
      Call.set_samplerate cfg.samplerate, Call.set_sample_type cfg.sample_type,
      Call.set_linearity_gain cfg.gain, Call.set_rf_bias cfg.bias,
      Call.fopen cfg.filename, Call.start_rx])
    refine ⟨7, m, by decide, by decide, ?_, fun h => absurd h (by decide), ?_,
      fun _ => hv, ?_, ?_⟩
    · simp only [h0, h1, ht, h2, h3, h4, h5, h6, ne_eq, not_true_eq_false, if_false,
        List.append_assoc, List.singleton_append, List.cons_append, List.nil_append,
        hm, setup_calls, List.take_succ_cons, List.take_zero]
    · intro j hj
      have hj' : j < 6 := by omega
      interval_cases j
      · exact c0.mpr h0
      · exact c1.mpr h1
      · exact c2.mpr h2
      · exact c3.mpr h3
      · exact c4.mpr h4
      · exact c5.mpr h5
    · intro h; omega
    · simp only [h0, h1, ht, h2, h3, h4, h5, h6, c5, ne_eq, not_true_eq_false, if_false,
        not_false_eq_true, List.append_assoc, List.singleton_append,
        List.cons_append, List.nil_append]
      decide

theorem list_samplerates_calls (env : Env) (c : Call)
    (h : c ∈ list_samplerates env [Call.dev_open]) :
    c = Call.dev_open ∨ c = Call.get_samplerates_count ∨ c = Call.malloc
      ∨ c = Call.get_samplerates_list := by
  unfold list_samplerates at h
  simp only [] at h
  split_ifs at h <;> simp at h <;> tauto

theorem setup_calls_mem (cfg : Config) (k : Nat) (c : Call)
    (h : c ∈ (setup_calls cfg).take k) :
    c ≠ Call.stop_rx ∧ c ≠ Call.dev_close ∧ c ≠ Call.fclose := by
  have h' := List.mem_of_mem_take h
  simp only [setup_calls, List.mem_cons, List.mem_singleton, List.not_mem_nil, or_false] at h'
  rcases h' with rfl | rfl | rfl | rfl | rfl | rfl | rfl <;> simp

/-- The calls before the cleanup contain no cleanup call. -/
theorem count_before_cleanup (env : Env) (cfg : Config) (k m : Nat) (x : Call)
    (hx : x = Call.stop_rx ∨ x = Call.dev_close ∨ x = Call.fclose) :
    (list_samplerates env [Call.dev_open] ++ (setup_calls cfg).take k
      ++ List.replicate m Call.is_streaming).count x = 0 := by
  apply List.count_eq_zero_of_not_mem
  intro hmem
  simp only [List.mem_append, List.mem_replicate] at hmem
  rcases hmem with (h | h) | h
  · rcases list_samplerates_calls env x h with e | e | e | e <;>
      rcases hx with r | r | r <;> rw [r] at e <;> cases e
  · have := setup_calls_mem cfg k x h
    rcases hx with r | r | r
    · exact this.1 r
    · exact this.2.1 r
    · exact this.2.2 r
  · rcases hx with r | r | r <;> rw [r] at h <;> cases h.2

theorem main_trace (env : Env) (polls : Nat) (argv : List (List Char)) (cfg : Config)
    (hargs : parse_args Config.default argv = Parsed.run cfg)
    (hopen : env [] Call.dev_open = HYDRASDR_SUCCESS) :
    (main env polls argv).2
      = (configure_and_stream env polls cfg (list_samplerates env [Call.dev_open])).2.1
        ++ [Call.stop_rx, Call.dev_close]
        ++ (if (configure_and_stream env polls cfg
                (list_samplerates env [Call.dev_open])).2.2 = true
            then [Call.fclose] else []) := by
  simp only [main, hargs, hopen, ne_eq, not_true_eq_false, if_false]
  split_ifs <;> simp

/-- C14. In the capture tool, once the device is open, the setup calls are made in the
strict order set frequency, set sample rate, set sample type (after its validation), set
gain, set bias-tee, then `fopen` and `start_rx`: the trace of `main` is the sample-rate
listing, the first `k` of these seven calls, the polls of the monitoring loop (none unless
all seven were made), `stop_rx`, `dev_close`, and `fclose` exactly when the file was
opened. For every step and every outcome of the calls: if call `j` fails, it is the last
setup call made (`k = j + 1`); if the sample type is outside `0 .. HYDRASDR_SAMPLE_END-1`,
nothing is called after set sample rate (`k ≤ 2`); the sequence stops early only for one
of these reasons; and on every path `stop_rx` and `dev_close` are each called exactly once
and `fclose` once if the file was opened, never otherwise. -/
theorem setup_order_and_cleanup (env : Env) (polls : Nat) (argv : List (List Char))
    (cfg : Config) (hargs : parse_args Config.default argv = Parsed.run cfg)
    (hopen : env [] Call.dev_open = HYDRASDR_SUCCESS) :
    ∃ k m, 1 ≤ k ∧ k ≤ 7 ∧ (k < 7 → m = 0) ∧
      ((6 ≤ k ∧ setup_ok env cfg (list_samplerates env [Call.dev_open]) 5) →
        (main env polls argv).2
          = list_samplerates env [Call.dev_open] ++ (setup_calls cfg).take k
            ++ List.replicate m Call.is_streaming
            ++ [Call.stop_rx, Call.dev_close, Call.fclose]) ∧
      (¬ (6 ≤ k ∧ setup_ok env cfg (list_samplerates env [Call.dev_open]) 5) →
        (main env polls argv).2
          = list_samplerates env [Call.dev_open] ++ (setup_calls cfg).take k
            ++ List.replicate m Call.is_streaming
            ++ [Call.stop_rx, Call.dev_close]) ∧
      (∀ j, j < k → ¬ setup_ok env cfg (list_samplerates env [Call.dev_open]) j →
        k = j + 1) ∧
      (¬ sample_type_valid cfg → k ≤ 2) ∧
      (k < 7 → ¬ setup_ok env cfg (list_samplerates env [Call.dev_open]) (k - 1)
        ∨ (k = 2 ∧ ¬ sample_type_valid cfg)) ∧
      (main env polls argv).2.count Call.stop_rx = 1 ∧
      (main env polls argv).2.count Call.dev_close = 1 ∧
      ((6 ≤ k ∧ setup_ok env cfg (list_samplerates env [Call.dev_open]) 5) →
        (main env polls argv).2.count Call.fclose = 1) ∧
      (¬ (6 ≤ k ∧ setup_ok env cfg (list_samplerates env [Call.dev_open]) 5) →
        (main env polls argv).2.count Call.fclose = 0) := by
  obtain ⟨k, m, hk1, hk7, htr, hm, hok, hvalid, hstop, hfile⟩ :=
    configure_and_stream_shape env polls cfg (list_samplerates env [Call.dev_open])
  have hmain := main_trace env polls argv cfg hargs hopen
  rw [htr] at hmain
  have c1 := count_before_cleanup env cfg k m Call.stop_rx (Or.inl rfl)
  have c2 := count_before_cleanup env cfg k m Call.dev_close (Or.inr (Or.inl rfl))
  have c3 := count_before_cleanup env cfg k m Call.fclose (Or.inr (Or.inr rfl))
  have hopened : (6 ≤ k ∧ setup_ok env cfg (list_samplerates env [Call.dev_open]) 5) →
      (main env polls argv).2
        = list_samplerates env [Call.dev_open] ++ (setup_calls cfg).take k
          ++ List.replicate m Call.is_streaming
          ++ [Call.stop_rx, Call.dev_close, Call.fclose] := by
    intro hF
    rw [hmain, if_pos (hfile.mpr hF)]
    simp
  have hclosed : ¬ (6 ≤ k ∧ setup_ok env cfg (list_samplerates env [Call.dev_open]) 5) →
      (main env polls argv).2
        = list_samplerates env [Call.dev_open] ++ (setup_calls cfg).take k
          ++ List.replicate m Call.is_streaming
          ++ [Call.stop_rx, Call.dev_close] := by
    intro hF
    rw [hmain, if_neg (fun h => hF (hfile.mp h))]
    simp
  refine ⟨k, m, hk1, hk7, hm, hopened, hclosed, ?_, ?_, hstop, ?_, ?_, ?_, ?_⟩
  · intro j hj hfail
    by_contra hne
    exact hfail (hok j (by omega))
  · intro hinv
    by_contra hgt
    exact hinv (hvalid (by omega))
  · by_cases hF : 6 ≤ k ∧ setup_ok env cfg (list_samplerates env [Call.dev_open]) 5
    · rw [hopened hF, List.count_append, c1]
      decide
    · rw [hclosed hF, List.count_append, c1]
      decide
  · by_cases hF : 6 ≤ k ∧ setup_ok env cfg (list_samplerates env [Call.dev_open]) 5
    · rw [hopened hF, List.count_append, c2]
      decide
    · rw [hclosed hF, List.count_append, c2]
      decide
  · intro hF
    rw [hopened hF, List.count_append, c3]
    decide
  · intro hF
    rw [hclosed hF, List.count_append, c3]
    decide

/-- C14, witness. With the default configuration and a device on which only
`hydrasdr_set_linearity_gain` fails, `main` sets frequency, sample rate and sample type,
fails at the gain, makes no further setup call, calls `stop_rx` and `dev_close` once each,
never opens nor closes the file, and returns `EXIT_FAILURE`. -/
theorem setup_order_and_cleanup_witness :
    main env_gain_fails 2 []
      = (EXIT_FAILURE,
         [Call.dev_open, Call.get_samplerates_count, Call.set_freq 100000000,
          Call.set_samplerate 2500000, Call.set_sample_type 2, Call.set_linearity_gain 10,
          Call.stop_rx, Call.dev_close]) ∧
    (main env_gain_fails 2 []).2.count Call.stop_rx = 1 ∧
    (main env_gain_fails 2 []).2.count Call.dev_close = 1 := by
  obtain ⟨k, m, _, _, _, _, _, _, _, _, hs, hc, _, _⟩ :=
    setup_order_and_cleanup env_gain_fails 2 [] Config.default rfl rfl
  exact ⟨by decide, hs, hc⟩

end AsyncRx

end HydraSDR
